import Mathlib

/-!
# Execute stage of the tinyrv five-stage RISC-V core

A shallow embedding of `src/execute.cpp`: the ALU (`Core::alu_unit`), the branch
unit (`Core::branch_unit`), the memory access unit (`Core::mem_access`,
`Core::dmem_read`, `Core::dmem_write`) and the CSR gate (`Core::get_csr`,
`Core::set_csr`).

Conventions.
* A `uint32_t` is a `Nat`; every operation that can leave the 32-bit range is
  reduced `% 2 ^ 32` where the C++ wraps.  `(int32_t)x` is `toInt32 x`.
* The members of `Core` that the stage touches are the fields of the structure
  `Core`; a member function is a function of the state before the call.
* `std::abort()` is the constructor `Outcome.aborted`, which keeps the state
  reached at the point of the abort.
* Trace output (`DT`, `DTH`) is not modelled.
-/

namespace tinyrv

/-! ## Data model -/

/-- ALU operation tag (`AluOp`).  `invalid` stands for any value of the enum type
outside its enumerators, the case the `default:` label of the switch catches. -/
inductive AluOp where
  | NONE | ADD | SUB | AND | OR | XOR | SLL | SRL | SRA | LTI | LTU
  | invalid
  deriving DecidableEq, Repr

/-- Branch operation tag (`BrOp`).  `invalid` stands for any value of the enum
type outside its enumerators, the case the `default:` label catches. -/
inductive BrOp where
  | NONE | JAL | JALR | BEQ | BNE | BLT | BGE | BLTU | BGEU
  | invalid
  deriving DecidableEq, Repr

/-- The execute flags of a decoded instruction that this stage reads
(`instr.getExeFlags()`). -/
structure ExeFlags where
  alu_s1_PC : Bool
  alu_s1_rs1 : Bool
  alu_s1_inv : Bool
  alu_s2_imm : Bool
  is_load : Bool
  is_store : Bool
  is_csr : Bool
  deriving DecidableEq, Repr

/-- The fields of a decoded instruction that this stage reads: `getExeFlags()`,
`getAluOp()`, `getBrOp()`, `getFunc3()`, `getImm()` and `getRs1()`. -/
structure Instr where
  exe_flags : ExeFlags
  alu_op : AluOp
  br_op : BrOp
  func3 : Nat
  imm : Nat
  rs1 : Nat
  deriving DecidableEq, Repr

/-- Content of a pipeline latch: the instruction in flight and its identifier. -/
structure LatchData where
  instr_code : Nat
  uuid : Nat
  deriving DecidableEq, Repr

/-- The two 64-bit performance counters (`perf_stats_`). -/
structure PerfStats where
  cycles : Nat
  instrs : Nat
  deriving DecidableEq, Repr

/-- A request handed to the memory subsystem (`mmu_.read`, `mmu_.write`):
start address and size in bytes. -/
inductive MmuReq where
  | read (addr size : Nat)
  | write (addr size : Nat)
  deriving DecidableEq, Repr

/-- The state of the core as far as the execute stage reads or writes it.
`mem` is the byte content behind `mmu_`, `cout` the words handed to the console
sink in order, `mmu_log` the requests issued to `mmu_` in order. -/
structure Core where
  PC_ : Nat
  if_id_ : Option LatchData
  id_ex_ : Option LatchData
  fetch_stalled_ : Bool
  perf_stats_ : PerfStats
  mem : Nat → Nat
  cout : List Nat
  mmu_log : List MmuReq

/-- The constants of the headers that `execute.cpp` names: the sixteen CSR
addresses and the console output window. -/
structure Config where
  VX_CSR_MHARTID : Nat
  VX_CSR_SATP : Nat
  VX_CSR_PMPCFG0 : Nat
  VX_CSR_PMPADDR0 : Nat
  VX_CSR_MSTATUS : Nat
  VX_CSR_MISA : Nat
  VX_CSR_MEDELEG : Nat
  VX_CSR_MIDELEG : Nat
  VX_CSR_MIE : Nat
  VX_CSR_MTVEC : Nat
  VX_CSR_MEPC : Nat
  VX_CSR_MNSTATUS : Nat
  VX_CSR_MCYCLE : Nat
  VX_CSR_MCYCLE_H : Nat
  VX_CSR_MINSTRET : Nat
  VX_CSR_MINSTRET_H : Nat
  IO_COUT_ADDR : Nat
  IO_COUT_SIZE : Nat
  deriving DecidableEq, Repr

/-- Result of a member function that may call `std::abort()`. -/
inductive Outcome (α : Type) where
  | done (value : α) (state : Core)
  | aborted (state : Core)

/-- The core state when the call returned or aborted. -/
def Outcome.state {α : Type} : Outcome α → Core
  | .done _ s => s
  | .aborted s => s

/-- The returned value, if the call returned. -/
def Outcome.value {α : Type} : Outcome α → Option α
  | .done v _ => some v
  | .aborted _ => none

/-- Whether the call returned instead of aborting. -/
def Outcome.completes {α : Type} : Outcome α → Bool
  | .done _ _ => true
  | .aborted _ => false

/-! ## Machine integers -/

/-- Reinterpretation `(int32_t)x` of a 32-bit word. -/
def toInt32 (x : Nat) : Int :=
  if x % 2 ^ 32 < 2 ^ 31 then ((x % 2 ^ 32 : Nat) : Int) else ((x % 2 ^ 32 : Nat) : Int) - 2 ^ 32

/-- Conversion of a signed value back to `uint32_t`. -/
def toUInt32 (i : Int) : Nat := (i % 2 ^ 32).toNat

/-- Bitwise complement `~x` of a 32-bit word. -/
def not32 (x : Nat) : Nat := 2 ^ 32 - 1 - x % 2 ^ 32

/-- Modelled from the spec: `sext` of `util.h`, which is not among the sources;
the spec has the load path "sign-extend the raw bytes to full width".  The word
is returned as is at full width; otherwise the bits above `width` are set when
bit `width - 1` is set and cleared when it is not. -/
def sext (word width : Nat) : Nat :=
  if width = 32 then word
  else
    let mask := (1 <<< width) - 1
    if (word >>> (width - 1)) &&& 1 = 1 then (word ||| (not32 mask)) % 2 ^ 32
    else word &&& mask

/-! ## Arithmetic/logic unit -/

/-- Source function `Core::alu_unit`. -/
def alu_unit (instr : Instr) (rs1_data rs2_data PC : Nat) (s : Core) : Outcome Nat :=
  let exe_flags := instr.exe_flags
  let alu_op := instr.alu_op
  let alu_s1 := if exe_flags.alu_s1_PC then PC else (if exe_flags.alu_s1_rs1 then instr.rs1 else rs1_data)
  let alu_s2 := if exe_flags.alu_s2_imm then instr.imm else rs2_data
  let alu_s1 := if exe_flags.alu_s1_inv then not32 alu_s1 else alu_s1
  match alu_op with
  | .NONE => .done 0 s
  | .ADD => .done ((alu_s1 + alu_s2) % 2 ^ 32) s
  | .SUB => .done ((alu_s1 % 2 ^ 32 + (2 ^ 32 - alu_s2 % 2 ^ 32)) % 2 ^ 32) s
  | .AND => .done (alu_s1 &&& alu_s2) s
  | .OR => .done (alu_s1 ||| alu_s2) s
  | .XOR => .done (alu_s1 ^^^ alu_s2) s
  | .SLL => .done ((alu_s1 <<< (alu_s2 &&& 0x1F)) % 2 ^ 32) s
  | .SRL => .done (alu_s1 >>> (alu_s2 &&& 0x1F)) s
  | .SRA => .done (toUInt32 (toInt32 alu_s1 >>> (alu_s2 &&& 0x1F))) s
  | .LTI => .done (if toInt32 alu_s1 < toInt32 alu_s2 then 1 else 0) s
  | .LTU => .done (if alu_s1 < alu_s2 then 1 else 0) s
  | .invalid => .aborted s

/-! ## Branch unit -/

/-- The first switch of `Core::branch_unit`: the value of the local `br_taken`,
or `none` when the `default:` label aborts. -/
def br_taken (br_op : BrOp) (rs1_data rs2_data : Nat) : Option Bool :=
  match br_op with
  | .NONE => some false
  | .JAL => some true
  | .JALR => some true
  | .BEQ => some (decide (rs1_data = rs2_data))
  | .BNE => some (decide (rs1_data ≠ rs2_data))
  | .BLT => some (decide (toInt32 rs1_data < toInt32 rs2_data))
  | .BGE => some (decide (toInt32 rs1_data ≥ toInt32 rs2_data))
  | .BLTU => some (decide (rs1_data < rs2_data))
  | .BGEU => some (decide (rs1_data ≥ rs2_data))
  | .invalid => none

/-- Source function `Core::branch_unit`. -/
def branch_unit (instr : Instr) (rs1_data rs2_data rd_data PC : Nat) (s : Core) : Outcome Nat :=
  let br_op := instr.br_op
  match br_taken br_op rs1_data rs2_data with
  | none => .aborted s
  | some taken =>
    if br_op ≠ BrOp.NONE then
      let br_target := rd_data
      if taken then
        let next_PC := (PC + 4) % 2 ^ 32
        let rd_data := if br_op = BrOp.JAL ∨ br_op = BrOp.JALR then (PC + 4) % 2 ^ 32 else rd_data
        if br_op ≠ BrOp.JAL ∧ br_target ≠ next_PC then
          .done rd_data { s with PC_ := br_target, if_id_ := none, fetch_stalled_ := false }
        else .done rd_data s
      else .done rd_data s
    else .done rd_data s

/-! ## CSR gate -/

/-- Source function `Core::get_csr`. -/
def get_csr (c : Config) (addr : Nat) (s : Core) : Outcome Nat :=
  if addr = c.VX_CSR_MHARTID ∨ addr = c.VX_CSR_SATP ∨ addr = c.VX_CSR_PMPCFG0
      ∨ addr = c.VX_CSR_PMPADDR0 ∨ addr = c.VX_CSR_MSTATUS ∨ addr = c.VX_CSR_MISA
      ∨ addr = c.VX_CSR_MEDELEG ∨ addr = c.VX_CSR_MIDELEG ∨ addr = c.VX_CSR_MIE
      ∨ addr = c.VX_CSR_MTVEC ∨ addr = c.VX_CSR_MEPC ∨ addr = c.VX_CSR_MNSTATUS then
    .done 0 s
  else if addr = c.VX_CSR_MCYCLE then
    .done ((s.perf_stats_.cycles &&& 0xffffffff) % 2 ^ 32) s
  else if addr = c.VX_CSR_MCYCLE_H then
    .done ((s.perf_stats_.cycles >>> 32) % 2 ^ 32) s
  else if addr = c.VX_CSR_MINSTRET then
    .done ((s.perf_stats_.instrs &&& 0xffffffff) % 2 ^ 32) s
  else if addr = c.VX_CSR_MINSTRET_H then
    .done ((s.perf_stats_.instrs >>> 32) % 2 ^ 32) s
  else .aborted s

/-- Source function `Core::set_csr`. -/
def set_csr (c : Config) (addr _value : Nat) (s : Core) : Outcome Unit :=
  if addr = c.VX_CSR_SATP ∨ addr = c.VX_CSR_MSTATUS ∨ addr = c.VX_CSR_MEDELEG
      ∨ addr = c.VX_CSR_MIDELEG ∨ addr = c.VX_CSR_MIE ∨ addr = c.VX_CSR_MTVEC
      ∨ addr = c.VX_CSR_MEPC ∨ addr = c.VX_CSR_PMPCFG0 ∨ addr = c.VX_CSR_PMPADDR0
      ∨ addr = c.VX_CSR_MNSTATUS then
    .done () s
  else .aborted s

/-! ## Memory access unit -/

/-- Modelled from the spec: `mmu_.read` of the memory subsystem, which is not among
the sources; "a flat byte-addressable space accessed through size-bounded
read/write operations".  The value of the `size` bytes from `addr` on, as they
land in a buffer of a little-endian host. -/
def mmu_read (mem : Nat → Nat) (addr : Nat) : Nat → Nat
  | 0 => 0
  | size + 1 => mem addr % 256 + 256 * mmu_read mem (addr + 1) size

/-- Modelled from the spec: `mmu_.write` of the memory subsystem, which is not
among the sources.  The first `size` bytes of the buffer holding `data`
(little-endian host) replace the bytes from `addr` on. -/
def mmu_write (mem : Nat → Nat) (data addr size : Nat) : Nat → Nat :=
  fun a => if addr ≤ a ∧ a < addr + size then (data / 256 ^ (a - addr)) % 256 else mem a

/-- Source function `Core::dmem_read`, for the `uint32_t` buffer `read_data` of `mem_access`, which
holds zero before the call: the value of the buffer after the call, and the
state.  A read of more than four bytes leaves the low four in the buffer. -/
def dmem_read (addr size : Nat) (s : Core) : Nat × Core :=
  (mmu_read s.mem addr size % 2 ^ 32,
   { s with mmu_log := s.mmu_log ++ [MmuReq.read addr size] })

/-- Source function `Core::dmem_write`, for a buffer holding the word `data`. -/
def dmem_write (c : Config) (data addr size : Nat) (s : Core) : Core :=
  if addr ≥ c.IO_COUT_ADDR ∧ addr < (c.IO_COUT_ADDR + c.IO_COUT_SIZE) % 2 ^ 64 then
    { s with cout := s.cout ++ [data] }
  else
    { s with mem := mmu_write s.mem data addr size,
             mmu_log := s.mmu_log ++ [MmuReq.write addr size] }

/-- Source function `Core::mem_access`. -/
def mem_access (c : Config) (instr : Instr) (rd_data rs2_data : Nat) (s : Core) : Outcome Nat :=
  let exe_flags := instr.exe_flags
  let func3 := instr.func3
  -- handle loads
  let loaded : Outcome Nat :=
    if exe_flags.is_load then
      let mem_addr := rd_data
      let data_bytes := (1 <<< (func3 &&& 0x3)) % 2 ^ 32
      let data_width := (8 * data_bytes) % 2 ^ 32
      let r := dmem_read mem_addr data_bytes s
      let read_data := r.1
      if func3 = 0 ∨ func3 = 1 then .done (sext read_data data_width) r.2
      else if func3 = 2 then .done read_data r.2
      else if func3 = 4 ∨ func3 = 5 then
        .done (read_data &&& ((1 <<< data_width) - 1)) r.2
      else .aborted r.2
    else .done rd_data s
  match loaded with
  | .aborted s1 => .aborted s1
  | .done rd_data s1 =>
    -- handle stores
    let stored : Outcome Unit :=
      if exe_flags.is_store then
        let mem_addr := rd_data
        let data_bytes := (1 <<< (func3 &&& 0x3)) % 2 ^ 32
        if func3 = 0 ∨ func3 = 1 ∨ func3 = 2 then
          .done () (dmem_write c rs2_data mem_addr data_bytes s1)
        else .aborted s1
      else .done () s1
    match stored with
    | .aborted s2 => .aborted s2
    | .done _ s2 =>
      -- handle CSR write
      if exe_flags.is_csr then
        if rs2_data ≠ rd_data then
          match set_csr c instr.imm rd_data s2 with
          | .aborted s3 => .aborted s3
          | .done _ s3 => .done rs2_data s3
        else .done rs2_data s2
      else .done rd_data s2

/-! ## Sample configuration and state -/

/-- The CSR numbers of the RISC-V privileged specification for the sixteen
registers, with a console window of 64 bytes at address 0x40. -/
def rvConfig : Config where
  VX_CSR_MHARTID := 0xF14
  VX_CSR_SATP := 0x180
  VX_CSR_PMPCFG0 := 0x3A0
  VX_CSR_PMPADDR0 := 0x3B0
  VX_CSR_MSTATUS := 0x300
  VX_CSR_MISA := 0x301
  VX_CSR_MEDELEG := 0x302
  VX_CSR_MIDELEG := 0x303
  VX_CSR_MIE := 0x304
  VX_CSR_MTVEC := 0x305
  VX_CSR_MEPC := 0x341
  VX_CSR_MNSTATUS := 0x744
  VX_CSR_MCYCLE := 0xB00
  VX_CSR_MCYCLE_H := 0xB80
  VX_CSR_MINSTRET := 0xB02
  VX_CSR_MINSTRET_H := 0xB82
  IO_COUT_ADDR := 0x40
  IO_COUT_SIZE := 64

/-- The sixteen case labels of the switch of `get_csr`, in source order. -/
def Config.readLabels (c : Config) : List Nat :=
  [c.VX_CSR_MHARTID, c.VX_CSR_SATP, c.VX_CSR_PMPCFG0, c.VX_CSR_PMPADDR0,
   c.VX_CSR_MSTATUS, c.VX_CSR_MISA, c.VX_CSR_MEDELEG, c.VX_CSR_MIDELEG,
   c.VX_CSR_MIE, c.VX_CSR_MTVEC, c.VX_CSR_MEPC, c.VX_CSR_MNSTATUS,
   c.VX_CSR_MCYCLE, c.VX_CSR_MCYCLE_H, c.VX_CSR_MINSTRET, c.VX_CSR_MINSTRET_H]

/-- The twelve control/status labels of `get_csr`, the ones that return zero. -/
def Config.zeroLabels (c : Config) : List Nat :=
  [c.VX_CSR_MHARTID, c.VX_CSR_SATP, c.VX_CSR_PMPCFG0, c.VX_CSR_PMPADDR0,
   c.VX_CSR_MSTATUS, c.VX_CSR_MISA, c.VX_CSR_MEDELEG, c.VX_CSR_MIDELEG,
   c.VX_CSR_MIE, c.VX_CSR_MTVEC, c.VX_CSR_MEPC, c.VX_CSR_MNSTATUS]

/-- The four counter labels of `get_csr`. -/
def Config.counterLabels (c : Config) : List Nat :=
  [c.VX_CSR_MCYCLE, c.VX_CSR_MCYCLE_H, c.VX_CSR_MINSTRET, c.VX_CSR_MINSTRET_H]

/-- The ten case labels of the switch of `set_csr`, in source order. -/
def Config.writeLabels (c : Config) : List Nat :=
  [c.VX_CSR_SATP, c.VX_CSR_MSTATUS, c.VX_CSR_MEDELEG, c.VX_CSR_MIDELEG,
   c.VX_CSR_MIE, c.VX_CSR_MTVEC, c.VX_CSR_MEPC, c.VX_CSR_PMPCFG0,
   c.VX_CSR_PMPADDR0, c.VX_CSR_MNSTATUS]

/-- The case labels of one switch are pairwise different constants (a switch
with a repeated label does not compile). -/
def Config.WellFormed (c : Config) : Prop := c.readLabels.Nodup

instance (c : Config) : Decidable c.WellFormed := by
  unfold Config.WellFormed; infer_instance

/-- A core right after reset: empty latches, zero counters, zeroed memory. -/
def Core.init : Core where
  PC_ := 0
  if_id_ := none
  id_ex_ := none
  fetch_stalled_ := false
  perf_stats_ := { cycles := 0, instrs := 0 }
  mem := fun _ => 0
  cout := []
  mmu_log := []

/-- An instruction with every flag clear and every tag `NONE`. -/
def Instr.nop : Instr where
  exe_flags := { alu_s1_PC := false, alu_s1_rs1 := false, alu_s1_inv := false,
                 alu_s2_imm := false, is_load := false, is_store := false, is_csr := false }
  alu_op := AluOp.NONE
  br_op := BrOp.NONE
  func3 := 0
  imm := 0
  rs1 := 0

/-- A load instruction with width selector `func3`. -/
def Instr.load (func3 : Nat) : Instr :=
  { Instr.nop with exe_flags := { Instr.nop.exe_flags with is_load := true }, func3 := func3 }

/-- A store instruction with width selector `func3`. -/
def Instr.store (func3 : Nat) : Instr :=
  { Instr.nop with exe_flags := { Instr.nop.exe_flags with is_store := true }, func3 := func3 }

/-- A core after reset whose memory holds the byte `b` at `addr`, zero elsewhere. -/
def Core.withByte (addr b : Nat) : Core :=
  { Core.init with mem := fun a => if a = addr then b else 0 }

/-- A CSR-class instruction whose immediate field holds the CSR address `imm`. -/
def Instr.csr (imm : Nat) : Instr :=
  { Instr.nop with exe_flags := { Instr.nop.exe_flags with is_csr := true }, imm := imm }

/-- An instruction with ALU tag `op` whose operands are the two register values. -/
def Instr.alu (op : AluOp) : Instr :=
  { Instr.nop with alu_op := op }

/-! ## Definitions that follow the words of the specification -/

/-- A 32-bit word read as a two's-complement signed integer. -/
def signed32 (x : Nat) : Int := (BitVec.ofNat 32 x).toInt

/-- The six conditional branch kinds. -/
def BrOp.isConditional : BrOp → Bool
  | .BEQ | .BNE | .BLT | .BGE | .BLTU | .BGEU => true
  | _ => false

/-- The comparison that the specification attaches to each conditional branch
kind: equal, not equal, signed less, signed greater or equal, unsigned less,
unsigned greater or equal.  The other kinds have no comparison. -/
def BrOp.condition : BrOp → Nat → Nat → Bool
  | .BEQ, a, b => decide (a = b)
  | .BNE, a, b => decide (a ≠ b)
  | .BLT, a, b => decide (signed32 a < signed32 b)
  | .BGE, a, b => decide (signed32 a ≥ signed32 b)
  | .BLTU, a, b => decide (a < b)
  | .BGEU, a, b => decide (a ≥ b)
  | _, _, _ => false

/-- The 32-bit sign extension of the low `w` bits of `x`: the 32-bit word with the
same two's-complement value as the `w`-bit word. -/
def signExtend32 (w x : Nat) : Nat := ((BitVec.ofNat w x).signExtend 32).toNat

/-- The first ALU operand as the specification selects it: the program counter if
the instruction marks it so, else the raw register-index field if the
instruction marks that, else the fetched register value; then complemented
bitwise if the inversion flag is set. -/
def firstOperand (instr : Instr) (rs1_data PC : Nat) : Nat :=
  let selected :=
    if instr.exe_flags.alu_s1_PC then PC
    else if instr.exe_flags.alu_s1_rs1 then instr.rs1
    else rs1_data
  if instr.exe_flags.alu_s1_inv then not32 selected else selected

/-- The second ALU operand as the specification selects it: the immediate field if
flagged, else the fetched register value. -/
def secondOperand (instr : Instr) (rs2_data : Nat) : Nat :=
  if instr.exe_flags.alu_s2_imm then instr.imm else rs2_data

/-- The eleven defined ALU operation tags. -/
def AluOp.isDefined : AluOp → Bool
  | .invalid => false
  | _ => true

/-- The start address lies in the console output window
`[IO_COUT_ADDR, IO_COUT_ADDR + IO_COUT_SIZE)`. -/
def Config.inConsoleWindow (c : Config) (addr : Nat) : Prop :=
  c.IO_COUT_ADDR ≤ addr ∧ addr < c.IO_COUT_ADDR + c.IO_COUT_SIZE

instance (c : Config) (addr : Nat) : Decidable (c.inConsoleWindow addr) := by
  unfold Config.inConsoleWindow; infer_instance

/-- The bitwise complement of a 32-bit word. -/
def complement32 (x : Nat) : Nat := (~~~ (BitVec.ofNat 32 x)).toNat

/-- The value the specification gives each operation tag on the operands `a` and
`b`, in 32-bit unsigned arithmetic unless noted: add, subtract, bitwise and, or,
exclusive or, logical shift left and right, arithmetic shift right (operand read
as signed), signed less-than, unsigned less-than, with shift amounts taken
modulo 32; zero for the no-operation tag; no value for a tag outside the
enumerated set, which is fatal. -/
def aluSpec : AluOp → Nat → Nat → Option Nat
  | .NONE, _, _ => some 0
  | .ADD, a, b => some ((a + b) % 2 ^ 32)
  | .SUB, a, b => some ((((a : Int) - (b : Int)) % 2 ^ 32).toNat)
  | .AND, a, b => some (a &&& b)
  | .OR, a, b => some (a ||| b)
  | .XOR, a, b => some (a ^^^ b)
  | .SLL, a, b => some (a * 2 ^ (b % 32) % 2 ^ 32)
  | .SRL, a, b => some (a / 2 ^ (b % 32))
  | .SRA, a, b => some (((signed32 a).fdiv (2 ^ (b % 32)) % 2 ^ 32).toNat)
  | .LTI, a, b => some (if signed32 a < signed32 b then 1 else 0)
  | .LTU, a, b => some (if a < b then 1 else 0)
  | .invalid, _, _ => none

/-! ## Machine integers: basic facts -/

theorem toInt32_eq_signed32 (x : Nat) : toInt32 x = signed32 x := by
  unfold toInt32 signed32 BitVec.toInt
  simp only [BitVec.toNat_ofNat]
  have h : x % 2 ^ 32 < 2 ^ 32 := Nat.mod_lt _ (by norm_num)
  by_cases h1 : x % 2 ^ 32 < 2 ^ 31
  · have h2 : 2 * (x % 2 ^ 32) < 2 ^ 32 := by omega
    rw [if_pos h1, if_pos h2]
  · have h2 : ¬ 2 * (x % 2 ^ 32) < 2 ^ 32 := by omega
    rw [if_neg h1, if_neg h2]
    norm_num

/-- The switch of the branch unit agrees with the comparison of the specification
on the six conditional kinds. -/
theorem br_taken_conditional (op : BrOp) (a b : Nat) (h : op.isConditional = true) :
    br_taken op a b = some (op.condition a b) := by
  cases op <;> simp_all [BrOp.isConditional, br_taken, BrOp.condition, toInt32_eq_signed32]

/-! ## Branch unit: redirect, frame, link address, taken decision -/

/-- C1: with a target `rd_data` different from `(PC + 4) mod 2^32`, a `JALR`, or a
conditional branch whose comparison holds on the operands, makes `branch_unit`
return with `PC_` equal to the target, the fetch/decode latch empty and
`fetch_stalled_` false, whatever the state held before. -/
theorem branch_unit_redirect (instr : Instr) (rs1_data rs2_data rd_data PC : Nat) (s : Core)
    (htarget : rd_data ≠ (PC + 4) % 2 ^ 32)
    (hkind : instr.br_op = BrOp.JALR ∨
      (instr.br_op.isConditional = true ∧ instr.br_op.condition rs1_data rs2_data = true)) :
    (branch_unit instr rs1_data rs2_data rd_data PC s).completes = true
    ∧ (branch_unit instr rs1_data rs2_data rd_data PC s).state.PC_ = rd_data
    ∧ (branch_unit instr rs1_data rs2_data rd_data PC s).state.if_id_ = none
    ∧ (branch_unit instr rs1_data rs2_data rd_data PC s).state.fetch_stalled_ = false := by
  have htarget1 : ¬ rd_data = (PC + 4) % 4294967296 := by simpa using htarget
  rcases hkind with hj | ⟨hc, hp⟩
  · simp [branch_unit, hj, br_taken, htarget1, Outcome.completes, Outcome.state]
  · have ht := br_taken_conditional instr.br_op rs1_data rs2_data hc
    rw [hp] at ht
    have hne : instr.br_op ≠ BrOp.NONE := by
      intro h; rw [h] at hc; simp [BrOp.isConditional] at hc
    have hnj : instr.br_op ≠ BrOp.JAL := by
      intro h; rw [h] at hc; simp [BrOp.isConditional] at hc
    simp [branch_unit, ht, hne, hnj, htarget1, Outcome.completes, Outcome.state]

theorem branch_unit_redirect_witness :
    (branch_unit { Instr.nop with br_op := BrOp.BLT } 0x80000000 0x7FFFFFFF 0x100 0x40
        { Core.init with PC_ := 0x48, if_id_ := some ⟨0x13, 7⟩, fetch_stalled_ := true }).completes = true
    ∧ (branch_unit { Instr.nop with br_op := BrOp.BLT } 0x80000000 0x7FFFFFFF 0x100 0x40
        { Core.init with PC_ := 0x48, if_id_ := some ⟨0x13, 7⟩, fetch_stalled_ := true }).state.PC_ = 0x100
    ∧ (branch_unit { Instr.nop with br_op := BrOp.BLT } 0x80000000 0x7FFFFFFF 0x100 0x40
        { Core.init with PC_ := 0x48, if_id_ := some ⟨0x13, 7⟩, fetch_stalled_ := true }).state.if_id_ = none
    ∧ (branch_unit { Instr.nop with br_op := BrOp.BLT } 0x80000000 0x7FFFFFFF 0x100 0x40
        { Core.init with PC_ := 0x48, if_id_ := some ⟨0x13, 7⟩, fetch_stalled_ := true }).state.fetch_stalled_
          = false :=
  branch_unit_redirect { Instr.nop with br_op := BrOp.BLT } 0x80000000 0x7FFFFFFF 0x100 0x40
    { Core.init with PC_ := 0x48, if_id_ := some ⟨0x13, 7⟩, fetch_stalled_ := true }
    (by decide) (Or.inr ⟨by decide, by decide⟩)

/-- C2: `branch_unit` leaves `PC_`, the fetch/decode latch and `fetch_stalled_` as
they were when the kind is `NONE`, when the kind is conditional and its
comparison fails on the operands, and, for every kind, when the target `rd_data`
is `(PC + 4) mod 2^32`. -/
theorem branch_unit_frame (instr : Instr) (rs1_data rs2_data rd_data PC : Nat) (s : Core)
    (h : instr.br_op = BrOp.NONE
      ∨ (instr.br_op.isConditional = true ∧ instr.br_op.condition rs1_data rs2_data = false)
      ∨ rd_data = (PC + 4) % 2 ^ 32) :
    (branch_unit instr rs1_data rs2_data rd_data PC s).state.PC_ = s.PC_
    ∧ (branch_unit instr rs1_data rs2_data rd_data PC s).state.if_id_ = s.if_id_
    ∧ (branch_unit instr rs1_data rs2_data rd_data PC s).state.fetch_stalled_ = s.fetch_stalled_ := by
  have key : (branch_unit instr rs1_data rs2_data rd_data PC s).state = s := by
    rcases h with h | ⟨hc, hp⟩ | h
    · simp [branch_unit, h, br_taken, Outcome.state]
    · have ht := br_taken_conditional instr.br_op rs1_data rs2_data hc
      rw [hp] at ht
      simp [branch_unit, ht, Outcome.state]
    · cases hb : br_taken instr.br_op rs1_data rs2_data with
      | none => simp [branch_unit, hb, Outcome.state]
      | some t =>
        simp only [branch_unit, hb, h, ne_eq, not_true_eq_false, and_false, if_false]
        by_cases hn : instr.br_op = BrOp.NONE
        · rw [if_neg (not_not.mpr hn)]; rfl
        · rw [if_pos hn]
          cases t <;> rfl
  rw [key]
  exact ⟨rfl, rfl, rfl⟩

theorem branch_unit_frame_witness :
    (branch_unit { Instr.nop with br_op := BrOp.JALR } 5 6 0x44 0x40
        { Core.init with PC_ := 0x48, if_id_ := some ⟨0x13, 7⟩, fetch_stalled_ := true }).state.PC_ = 0x48
    ∧ (branch_unit { Instr.nop with br_op := BrOp.JALR } 5 6 0x44 0x40
        { Core.init with PC_ := 0x48, if_id_ := some ⟨0x13, 7⟩, fetch_stalled_ := true }).state.if_id_
          = some ⟨0x13, 7⟩
    ∧ (branch_unit { Instr.nop with br_op := BrOp.JALR } 5 6 0x44 0x40
        { Core.init with PC_ := 0x48, if_id_ := some ⟨0x13, 7⟩, fetch_stalled_ := true }).state.fetch_stalled_
          = true :=
  branch_unit_frame { Instr.nop with br_op := BrOp.JALR } 5 6 0x44 0x40
    { Core.init with PC_ := 0x48, if_id_ := some ⟨0x13, 7⟩, fetch_stalled_ := true }
    (Or.inr (Or.inr (by decide)))

/-- C3: for the kinds `JAL` and `JALR`, `branch_unit` returns `(PC + 4) mod 2^32`,
whatever the operands, the incoming `rd_data` (the target) and the state. -/
theorem branch_unit_link (instr : Instr) (rs1_data rs2_data rd_data PC : Nat) (s : Core)
    (h : instr.br_op = BrOp.JAL ∨ instr.br_op = BrOp.JALR) :
    (branch_unit instr rs1_data rs2_data rd_data PC s).value = some ((PC + 4) % 2 ^ 32) := by
  rcases h with h | h
  · simp [branch_unit, h, br_taken, Outcome.value]
  · by_cases ht : rd_data = (PC + 4) % 4294967296
    · simp [branch_unit, h, br_taken, Outcome.value, ht]
    · simp [branch_unit, h, br_taken, Outcome.value, ht]

theorem branch_unit_link_witness :
    (branch_unit { Instr.nop with br_op := BrOp.JALR } 0x1234 0x5678 0x2000 0xFFFFFFFC Core.init).value
      = some 0 :=
  branch_unit_link { Instr.nop with br_op := BrOp.JALR } 0x1234 0x5678 0x2000 0xFFFFFFFC Core.init
    (Or.inr rfl)

/-- C4: the taken decision of `branch_unit`: `BEQ` iff the operands are equal, `BNE`
iff they differ, `BLT` iff the first is less as two's-complement signed 32-bit
integers, `BGE` iff it is greater or equal signed, `BLTU` iff it is less
unsigned, `BGEU` iff it is greater or equal unsigned; `JAL` and `JALR` always,
`NONE` never.  On `(0x80000000, 0x7FFFFFFF)` `BLT` is taken and `BLTU` is not. -/
theorem br_taken_decision (rs1_data rs2_data : Nat) :
    br_taken BrOp.BEQ rs1_data rs2_data = some (decide (rs1_data = rs2_data))
    ∧ br_taken BrOp.BNE rs1_data rs2_data = some (decide (rs1_data ≠ rs2_data))
    ∧ br_taken BrOp.BLT rs1_data rs2_data = some (decide (signed32 rs1_data < signed32 rs2_data))
    ∧ br_taken BrOp.BGE rs1_data rs2_data = some (decide (signed32 rs1_data ≥ signed32 rs2_data))
    ∧ br_taken BrOp.BLTU rs1_data rs2_data = some (decide (rs1_data < rs2_data))
    ∧ br_taken BrOp.BGEU rs1_data rs2_data = some (decide (rs1_data ≥ rs2_data))
    ∧ br_taken BrOp.JAL rs1_data rs2_data = some true
    ∧ br_taken BrOp.JALR rs1_data rs2_data = some true
    ∧ br_taken BrOp.NONE rs1_data rs2_data = some false
    ∧ br_taken BrOp.BLT 0x80000000 0x7FFFFFFF = some true
    ∧ br_taken BrOp.BLTU 0x80000000 0x7FFFFFFF = some false := by
  refine ⟨rfl, rfl, ?_, ?_, rfl, rfl, rfl, rfl, rfl, by decide, by decide⟩
  · simp [br_taken, toInt32_eq_signed32]
  · simp [br_taken, toInt32_eq_signed32]

/-! ## CSR gate: the two allow-lists -/

theorem Config.mem_zeroLabels_of_mem_writeLabels (c : Config) (a : Nat)
    (h : a ∈ c.writeLabels) : a ∈ c.zeroLabels := by
  simp only [Config.writeLabels, Config.zeroLabels, List.mem_cons, List.mem_singleton,
    List.not_mem_nil, or_false] at h ⊢
  tauto

theorem Config.readLabels_eq (c : Config) : c.readLabels = c.zeroLabels ++ c.counterLabels := rfl

theorem Config.mem_readLabels (c : Config) (a : Nat) :
    a ∈ c.readLabels ↔ a ∈ c.zeroLabels ∨ a ∈ c.counterLabels := by
  rw [Config.readLabels_eq, List.mem_append]

theorem Config.WellFormed.not_zero_of_counter (c : Config) (hc : c.WellFormed) (a : Nat)
    (h : a ∈ c.counterLabels) : a ∉ c.zeroLabels := by
  unfold Config.WellFormed at hc
  rw [Config.readLabels_eq, List.nodup_append] at hc
  exact fun hz => hc.2.2 hz h

theorem Config.WellFormed.counters (c : Config) (hc : c.WellFormed) :
    c.VX_CSR_MCYCLE ≠ c.VX_CSR_MCYCLE_H ∧ c.VX_CSR_MCYCLE ≠ c.VX_CSR_MINSTRET
    ∧ c.VX_CSR_MCYCLE ≠ c.VX_CSR_MINSTRET_H ∧ c.VX_CSR_MCYCLE_H ≠ c.VX_CSR_MINSTRET
    ∧ c.VX_CSR_MCYCLE_H ≠ c.VX_CSR_MINSTRET_H ∧ c.VX_CSR_MINSTRET ≠ c.VX_CSR_MINSTRET_H := by
  unfold Config.WellFormed at hc
  rw [Config.readLabels_eq, List.nodup_append] at hc
  have h := hc.2.1
  simp only [Config.counterLabels, List.nodup_cons, List.mem_cons, List.mem_singleton,
    List.not_mem_nil, or_false, not_or, List.nodup_nil, and_true, not_false_eq_true] at h
  tauto

theorem Config.WellFormed.read_only (c : Config) (hc : c.WellFormed) :
    c.VX_CSR_MHARTID ∉ c.writeLabels ∧ c.VX_CSR_MISA ∉ c.writeLabels := by
  unfold Config.WellFormed at hc
  have e : c.readLabels =
      [c.VX_CSR_MHARTID, c.VX_CSR_SATP, c.VX_CSR_PMPCFG0, c.VX_CSR_PMPADDR0, c.VX_CSR_MSTATUS]
        ++ (c.VX_CSR_MISA :: ([c.VX_CSR_MEDELEG, c.VX_CSR_MIDELEG, c.VX_CSR_MIE, c.VX_CSR_MTVEC,
          c.VX_CSR_MEPC, c.VX_CSR_MNSTATUS] ++ c.counterLabels)) := rfl
  have h0 := (List.nodup_cons.mp hc).1
  rw [e, List.nodup_append] at hc
  obtain ⟨-, hback, hdisj⟩ := hc
  have h1 := (List.nodup_cons.mp hback).1
  have h2 : c.VX_CSR_MISA ∉
      [c.VX_CSR_MHARTID, c.VX_CSR_SATP, c.VX_CSR_PMPCFG0, c.VX_CSR_PMPADDR0, c.VX_CSR_MSTATUS] :=
    fun hm => hdisj hm (List.mem_cons_self _ _)
  simp only [Config.writeLabels, Config.counterLabels, Config.readLabels, List.mem_cons,
    List.mem_append, List.mem_singleton, List.not_mem_nil, or_false, not_or] at h0 h1 h2 ⊢
  tauto

theorem set_csr_eq (c : Config) (addr value : Nat) (s : Core) :
    set_csr c addr value s = if addr ∈ c.writeLabels then Outcome.done () s else Outcome.aborted s := by
  simp only [set_csr, Config.writeLabels, List.mem_cons, List.mem_singleton, List.not_mem_nil,
    or_false]

theorem get_csr_of_mem_zeroLabels (c : Config) (addr : Nat) (s : Core) (h : addr ∈ c.zeroLabels) :
    get_csr c addr s = Outcome.done 0 s := by
  simp only [Config.zeroLabels, List.mem_cons, List.mem_singleton, List.not_mem_nil, or_false] at h
  unfold get_csr
  rw [if_pos h]

theorem get_csr_of_not_mem_zeroLabels (c : Config) (addr : Nat) (s : Core) (h : addr ∉ c.zeroLabels) :
    get_csr c addr s =
      if addr = c.VX_CSR_MCYCLE then Outcome.done (s.perf_stats_.cycles % 2 ^ 32) s
      else if addr = c.VX_CSR_MCYCLE_H then Outcome.done (s.perf_stats_.cycles / 2 ^ 32 % 2 ^ 32) s
      else if addr = c.VX_CSR_MINSTRET then Outcome.done (s.perf_stats_.instrs % 2 ^ 32) s
      else if addr = c.VX_CSR_MINSTRET_H then Outcome.done (s.perf_stats_.instrs / 2 ^ 32 % 2 ^ 32) s
      else Outcome.aborted s := by
  simp only [Config.zeroLabels, List.mem_cons, List.mem_singleton, List.not_mem_nil, or_false] at h
  unfold get_csr
  rw [if_neg h]
  have m : ∀ x : Nat, (x &&& 0xffffffff) % 2 ^ 32 = x % 2 ^ 32 := by
    intro x
    have := Nat.and_pow_two_sub_one_eq_mod x 32
    norm_num at this
    rw [this]; simp
  simp only [m, Nat.shiftRight_eq_div_pow]

/-- C5: `get_csr` returns exactly at the sixteen addresses of its switch, and at
each of the twelve control/status addresses it returns zero and leaves the state
alone, whatever the counters and the rest of the state hold. -/
theorem get_csr_allow_list (c : Config) (addr : Nat) (s : Core) :
    ((get_csr c addr s).completes = true ↔ addr ∈ c.readLabels)
    ∧ (addr ∈ c.zeroLabels → get_csr c addr s = Outcome.done 0 s) := by
  refine ⟨?_, get_csr_of_mem_zeroLabels c addr s⟩
  rw [Config.mem_readLabels]
  by_cases hz : addr ∈ c.zeroLabels
  · rw [get_csr_of_mem_zeroLabels c addr s hz]
    simp [Outcome.completes, hz]
  · rw [get_csr_of_not_mem_zeroLabels c addr s hz]
    simp only [Config.counterLabels, List.mem_cons, List.mem_singleton, List.not_mem_nil, or_false]
    split_ifs <;> simp [Outcome.completes, *]

theorem get_csr_allow_list_witness :
    0x300 ∈ rvConfig.zeroLabels
    ∧ get_csr rvConfig 0x300 { Core.init with perf_stats_ := { cycles := 77, instrs := 33 } }
        = Outcome.done 0 { Core.init with perf_stats_ := { cycles := 77, instrs := 33 } } :=
  ⟨by decide,
   (get_csr_allow_list rvConfig 0x300
      { Core.init with perf_stats_ := { cycles := 77, instrs := 33 } }).2 (by decide)⟩

/-- C6, as stated, fails: at `MHARTID` (0xF14) `get_csr` returns the constant zero,
and `set_csr` aborts. -/
theorem set_csr_mhartid_aborts :
    (get_csr rvConfig 0xF14 Core.init).value = some 0
    ∧ (set_csr rvConfig 0xF14 0 Core.init).completes = false := by
  constructor <;> rfl

/-- C6, amended: the write allow-list is the control/status group without `MHARTID`
and `MISA`.  At each of the ten addresses of the switch of `set_csr`, `get_csr`
returns zero and `set_csr` returns for every value, with the state as it was; at
`MHARTID` and at `MISA` `set_csr` aborts. -/
theorem set_csr_allow_list (c : Config) (addr value : Nat) (s : Core) :
    (addr ∈ c.writeLabels →
      get_csr c addr s = Outcome.done 0 s ∧ set_csr c addr value s = Outcome.done () s)
    ∧ (c.WellFormed →
      set_csr c c.VX_CSR_MHARTID value s = Outcome.aborted s
      ∧ set_csr c c.VX_CSR_MISA value s = Outcome.aborted s) := by
  constructor
  · intro h
    exact ⟨get_csr_of_mem_zeroLabels c addr s (c.mem_zeroLabels_of_mem_writeLabels addr h),
      by rw [set_csr_eq, if_pos h]⟩
  · intro hc
    have h := Config.WellFormed.read_only c hc
    exact ⟨by rw [set_csr_eq, if_neg h.1], by rw [set_csr_eq, if_neg h.2]⟩

theorem set_csr_allow_list_witness :
    (0x305 ∈ rvConfig.writeLabels ∧ rvConfig.WellFormed)
    ∧ (get_csr rvConfig 0x305 Core.init = Outcome.done 0 Core.init
      ∧ set_csr rvConfig 0x305 0xDEADBEEF Core.init = Outcome.done () Core.init)
    ∧ (set_csr rvConfig rvConfig.VX_CSR_MHARTID 0xDEADBEEF Core.init = Outcome.aborted Core.init
      ∧ set_csr rvConfig rvConfig.VX_CSR_MISA 0xDEADBEEF Core.init = Outcome.aborted Core.init) :=
  ⟨⟨by decide, by decide⟩,
   (set_csr_allow_list rvConfig 0x305 0xDEADBEEF Core.init).1 (by decide),
   (set_csr_allow_list rvConfig 0x305 0xDEADBEEF Core.init).2 (by decide)⟩

/-- C7: `set_csr` aborts at each of the four counter addresses and at every address
outside the read allow-list; and when it returns, the whole core state is the
one before the call, and `get_csr` at the same address returns zero. -/
theorem set_csr_aborts (c : Config) (addr value : Nat) (s : Core) (hc : c.WellFormed) :
    (addr ∈ c.counterLabels → set_csr c addr value s = Outcome.aborted s)
    ∧ (addr ∉ c.readLabels → set_csr c addr value s = Outcome.aborted s)
    ∧ (∀ s1 : Core, set_csr c addr value s = Outcome.done () s1 →
        s1 = s ∧ get_csr c addr s1 = Outcome.done 0 s1) := by
  refine ⟨?_, ?_, ?_⟩
  · intro h
    have hz := Config.WellFormed.not_zero_of_counter c hc addr h
    rw [set_csr_eq, if_neg (fun hw => hz (c.mem_zeroLabels_of_mem_writeLabels addr hw))]
  · intro h
    rw [Config.mem_readLabels] at h
    rw [set_csr_eq, if_neg (fun hw => h (Or.inl (c.mem_zeroLabels_of_mem_writeLabels addr hw)))]
  · intro s1 h
    rw [set_csr_eq] at h
    by_cases hw : addr ∈ c.writeLabels
    · rw [if_pos hw] at h
      injection h with _ hs
      subst hs
      exact ⟨rfl, get_csr_of_mem_zeroLabels c addr s (c.mem_zeroLabels_of_mem_writeLabels addr hw)⟩
    · rw [if_neg hw] at h
      cases h

theorem set_csr_aborts_witness :
    rvConfig.WellFormed
    ∧ (0xB00 ∈ rvConfig.counterLabels
      ∧ set_csr rvConfig 0xB00 5 Core.init = Outcome.aborted Core.init)
    ∧ (0x7C0 ∉ rvConfig.readLabels
      ∧ set_csr rvConfig 0x7C0 5 Core.init = Outcome.aborted Core.init) :=
  ⟨by decide,
   ⟨by decide, (set_csr_aborts rvConfig 0xB00 5 Core.init (by decide)).1 (by decide)⟩,
   ⟨by decide, (set_csr_aborts rvConfig 0x7C0 5 Core.init (by decide)).2.1 (by decide)⟩⟩

/-- C8: for 64-bit counters, `get_csr` at `MCYCLE` returns the cycle counter modulo
`2^32` and at `MCYCLE_H` the counter divided by `2^32`, so that the low half plus
`2^32` times the high half is the counter; likewise the instruction counter at
`MINSTRET` and `MINSTRET_H`. -/
theorem get_csr_counters (c : Config) (s : Core) (hc : c.WellFormed)
    (hcycles : s.perf_stats_.cycles < 2 ^ 64) (hinstrs : s.perf_stats_.instrs < 2 ^ 64) :
    get_csr c c.VX_CSR_MCYCLE s = Outcome.done (s.perf_stats_.cycles % 2 ^ 32) s
    ∧ get_csr c c.VX_CSR_MCYCLE_H s = Outcome.done (s.perf_stats_.cycles / 2 ^ 32) s
    ∧ s.perf_stats_.cycles % 2 ^ 32 + 2 ^ 32 * (s.perf_stats_.cycles / 2 ^ 32) = s.perf_stats_.cycles
    ∧ get_csr c c.VX_CSR_MINSTRET s = Outcome.done (s.perf_stats_.instrs % 2 ^ 32) s
    ∧ get_csr c c.VX_CSR_MINSTRET_H s = Outcome.done (s.perf_stats_.instrs / 2 ^ 32) s
    ∧ s.perf_stats_.instrs % 2 ^ 32 + 2 ^ 32 * (s.perf_stats_.instrs / 2 ^ 32) = s.perf_stats_.instrs := by
  obtain ⟨h1, h2, h3, h4, h5, h6⟩ := Config.WellFormed.counters c hc
  have hz : ∀ a, a ∈ c.counterLabels → a ∉ c.zeroLabels := Config.WellFormed.not_zero_of_counter c hc
  have hhi : ∀ x : Nat, x < 2 ^ 64 → x / 2 ^ 32 % 2 ^ 32 = x / 2 ^ 32 := by
    intro x hx
    apply Nat.mod_eq_of_lt
    rw [Nat.div_lt_iff_lt_mul (by norm_num)]
    calc x < 2 ^ 64 := hx
      _ = 2 ^ 32 * 2 ^ 32 := by norm_num
  refine ⟨?_, ?_, Nat.mod_add_div _ _, ?_, ?_, Nat.mod_add_div _ _⟩
  · rw [get_csr_of_not_mem_zeroLabels c _ s (hz _ (by simp [Config.counterLabels])), if_pos rfl]
  · rw [get_csr_of_not_mem_zeroLabels c _ s (hz _ (by simp [Config.counterLabels])),
      if_neg h1.symm, if_pos rfl, hhi _ hcycles]
  · rw [get_csr_of_not_mem_zeroLabels c _ s (hz _ (by simp [Config.counterLabels])),
      if_neg h2.symm, if_neg h4.symm, if_pos rfl]
  · rw [get_csr_of_not_mem_zeroLabels c _ s (hz _ (by simp [Config.counterLabels])),
      if_neg h3.symm, if_neg h5.symm, if_neg h6.symm, if_pos rfl, hhi _ hinstrs]

theorem get_csr_counters_witness :
    get_csr rvConfig 0xB00 { Core.init with perf_stats_ := { cycles := 0x100000001, instrs := 0x100000001 } }
      = Outcome.done 1 { Core.init with perf_stats_ := { cycles := 0x100000001, instrs := 0x100000001 } }
    ∧ get_csr rvConfig 0xB80 { Core.init with perf_stats_ := { cycles := 0x100000001, instrs := 0x100000001 } }
      = Outcome.done 1 { Core.init with perf_stats_ := { cycles := 0x100000001, instrs := 0x100000001 } }
    ∧ get_csr rvConfig 0xB02 { Core.init with perf_stats_ := { cycles := 0x100000001, instrs := 0x100000001 } }
      = Outcome.done 1 { Core.init with perf_stats_ := { cycles := 0x100000001, instrs := 0x100000001 } }
    ∧ get_csr rvConfig 0xB82 { Core.init with perf_stats_ := { cycles := 0x100000001, instrs := 0x100000001 } }
      = Outcome.done 1 { Core.init with perf_stats_ := { cycles := 0x100000001, instrs := 0x100000001 } } :=
  have h := get_csr_counters rvConfig
    { Core.init with perf_stats_ := { cycles := 0x100000001, instrs := 0x100000001 } }
    (by decide) (by decide) (by decide)
  ⟨h.1, h.2.1, h.2.2.2.1, h.2.2.2.2.1⟩

/-! ## Memory access unit: sign extension and the byte memory -/

theorem signExtend32_eq (w r : Nat) (hw0 : 0 < w) (hw : w < 32) (hr : r < 2 ^ w) :
    signExtend32 w r = if r < 2 ^ (w - 1) then r else r + (2 ^ 32 - 2 ^ w) := by
  have hP : 2 ^ w = 2 * 2 ^ (w - 1) := by
    rw [← pow_succ']; congr 1; omega
  have hle : 2 ^ w ≤ 2 ^ 31 := Nat.pow_le_pow_right (by norm_num) (by omega)
  unfold signExtend32 BitVec.signExtend
  rw [BitVec.toNat_ofInt]
  unfold BitVec.toInt
  simp only [BitVec.toNat_ofNat, Nat.mod_eq_of_lt hr]
  split_ifs with h1 h2 h2
  · omega
  · omega
  · omega
  · generalize 2 ^ w = P at *
    generalize 2 ^ (w - 1) = H at *
    omega

theorem sext_eq (w r : Nat) (hw0 : 0 < w) (hw : w < 32) (hr : r < 2 ^ w) :
    sext r w = if r < 2 ^ (w - 1) then r else r + (2 ^ 32 - 2 ^ w) := by
  have hP : 2 ^ w = 2 * 2 ^ (w - 1) := by
    rw [← pow_succ']; congr 1; omega
  have hle : 2 ^ w ≤ 2 ^ 31 := Nat.pow_le_pow_right (by norm_num) (by omega)
  have hpos : 0 < 2 ^ (w - 1) := Nat.two_pow_pos _
  unfold sext
  rw [if_neg (by omega)]
  simp only [Nat.one_shiftLeft, Nat.and_one_is_mod, Nat.shiftRight_eq_div_pow,
    Nat.and_pow_two_sub_one_eq_mod, Nat.mod_eq_of_lt hr]
  by_cases h : r < 2 ^ (w - 1)
  · rw [if_pos h, if_neg]
    rw [Nat.div_eq_of_lt h]; norm_num
  · have hq : r / 2 ^ (w - 1) = 1 := by
      apply Nat.div_eq_of_lt_le
      · omega
      · omega
    rw [if_neg h, if_pos (by rw [hq])]
    have hsplit : 2 ^ 32 = 2 ^ w * 2 ^ (32 - w) := by
      rw [← pow_add]; congr 1; omega
    have hn : not32 (2 ^ w - 1) = 2 ^ w * (2 ^ (32 - w) - 1) := by
      unfold not32
      rw [Nat.mul_sub, ← hsplit, Nat.mod_eq_of_lt (by omega)]
      omega
    rw [hn, Nat.lor_comm, ← Nat.mul_add_lt_is_or hr, ← hn]
    unfold not32
    rw [Nat.mod_eq_of_lt (by omega : 2 ^ w - 1 < 2 ^ 32)]
    rw [Nat.mod_eq_of_lt (by omega)]
    omega

/-- C-style sign extension as computed equals the library sign extension. -/
theorem sext_eq_signExtend32 (w r : Nat) (hw0 : 0 < w) (hw : w < 32) (hr : r < 2 ^ w) :
    sext r w = signExtend32 w r := by
  rw [sext_eq w r hw0 hw hr, signExtend32_eq w r hw0 hw hr]

theorem mmu_read_lt (mem : Nat → Nat) (n : Nat) : ∀ addr, mmu_read mem addr n < 256 ^ n := by
  induction n with
  | zero => intro addr; simp [mmu_read]
  | succ n ih =>
    intro addr
    have h1 := ih (addr + 1)
    have h2 : mem addr % 256 < 256 := Nat.mod_lt _ (by norm_num)
    simp only [mmu_read, pow_succ]
    omega

theorem mmu_read_write_aux (mem : Nat → Nat) (v addr : Nat) (n : Nat) :
    ∀ k, mmu_read (mmu_write mem v addr (k + n)) (addr + k) n = v / 256 ^ k % 256 ^ n := by
  induction n with
  | zero => intro k; simp [mmu_read, Nat.mod_one]
  | succ n ih =>
    intro k
    have h := ih (k + 1)
    have e1 : k + 1 + n = k + (n + 1) := by omega
    have e2 : addr + (k + 1) = addr + k + 1 := by omega
    rw [e1, e2] at h
    simp only [mmu_read]
    rw [h]
    have hb : mmu_write mem v addr (k + (n + 1)) (addr + k) = v / 256 ^ k % 256 := by
      unfold mmu_write
      rw [if_pos (by omega)]
      congr 3
      omega
    rw [hb, Nat.mod_mod, pow_succ 256 n, Nat.mul_comm (256 ^ n) 256, Nat.mod_mul, pow_succ,
      Nat.div_div_eq_div_mul]

/-- Reading back the bytes just written gives the low `size` bytes of the data. -/
theorem mmu_read_write (mem : Nat → Nat) (v addr size : Nat) :
    mmu_read (mmu_write mem v addr size) addr size = v % 256 ^ size := by
  have h := mmu_read_write_aux mem v addr size 0
  simpa using h


/-- The value of `mem_access` on a pure load, in terms of the raw value read. -/
theorem mem_access_load_value (c : Config) (instr : Instr) (addr rs2_data : Nat) (s : Core)
    (hload : instr.exe_flags.is_load = true) (hstore : instr.exe_flags.is_store = false)
    (hcsr : instr.exe_flags.is_csr = false) :
    (instr.func3 = 0 → (mem_access c instr addr rs2_data s).value
        = some (sext (mmu_read s.mem addr 1) 8))
    ∧ (instr.func3 = 1 → (mem_access c instr addr rs2_data s).value
        = some (sext (mmu_read s.mem addr 2) 16))
    ∧ (instr.func3 = 2 → (mem_access c instr addr rs2_data s).value
        = some (mmu_read s.mem addr 4))
    ∧ (instr.func3 = 4 → (mem_access c instr addr rs2_data s).value
        = some (mmu_read s.mem addr 1 % 2 ^ 8))
    ∧ (instr.func3 = 5 → (mem_access c instr addr rs2_data s).value
        = some (mmu_read s.mem addr 2 % 2 ^ 16)) := by
  have b1 : mmu_read s.mem addr 1 % 4294967296 = mmu_read s.mem addr 1 :=
    Nat.mod_eq_of_lt (lt_trans (mmu_read_lt s.mem 1 addr) (by norm_num))
  have b2 : mmu_read s.mem addr 2 % 4294967296 = mmu_read s.mem addr 2 :=
    Nat.mod_eq_of_lt (lt_trans (mmu_read_lt s.mem 2 addr) (by norm_num))
  have b4 : mmu_read s.mem addr 4 % 4294967296 = mmu_read s.mem addr 4 :=
    Nat.mod_eq_of_lt (lt_of_lt_of_le (mmu_read_lt s.mem 4 addr) (by norm_num))
  have e1 : (1 &&& 3 : Nat) = 1 := by decide
  have e2 : (2 &&& 3 : Nat) = 2 := by decide
  have e4 : (4 &&& 3 : Nat) = 0 := by decide
  have e5 : (5 &&& 3 : Nat) = 1 := by decide
  have m8 : ∀ x : Nat, x &&& 255 = x % 256 := fun x => Nat.and_pow_two_sub_one_eq_mod x 8
  have m16 : ∀ x : Nat, x &&& 65535 = x % 65536 := fun x => Nat.and_pow_two_sub_one_eq_mod x 16
  refine ⟨?_, ?_, ?_, ?_, ?_⟩ <;> intro h
  · simp [mem_access, hload, hstore, hcsr, h, dmem_read, Outcome.value, b1]
  · simp [mem_access, hload, hstore, hcsr, h, dmem_read, Outcome.value, e1, b2]
  · simp [mem_access, hload, hstore, hcsr, h, dmem_read, Outcome.value, e2, b4]
  · simp [mem_access, hload, hstore, hcsr, h, dmem_read, Outcome.value, e4, b1, m8]
  · simp [mem_access, hload, hstore, hcsr, h, dmem_read, Outcome.value, e5, b2, m16]


/-- A pure store of a valid width outside the console window returns and leaves
the low bytes of the value in memory at the address. -/
theorem mem_access_store (c : Config) (instr : Instr) (addr v : Nat) (s : Core)
    (hstore : instr.exe_flags.is_store = true) (hload : instr.exe_flags.is_load = false)
    (hcsr : instr.exe_flags.is_csr = false)
    (hwin : ¬ (c.IO_COUT_ADDR ≤ addr ∧ addr < c.IO_COUT_ADDR + c.IO_COUT_SIZE))
    (hf : instr.func3 = 0 ∨ instr.func3 = 1 ∨ instr.func3 = 2) :
    (mem_access c instr addr v s).completes = true
    ∧ (mem_access c instr addr v s).state.mem = mmu_write s.mem v addr (2 ^ instr.func3) := by
  have hwin1 : ¬ (c.IO_COUT_ADDR ≤ addr
      ∧ addr < (c.IO_COUT_ADDR + c.IO_COUT_SIZE) % 18446744073709551616) := by
    intro h
    exact hwin ⟨h.1, lt_of_lt_of_le h.2 (Nat.mod_le _ _)⟩
  have e1 : (1 &&& 3 : Nat) = 1 := by decide
  have e2 : (2 &&& 3 : Nat) = 2 := by decide
  rcases hf with h | h | h
  · simp [mem_access, hload, hstore, hcsr, h, dmem_write, hwin1, Outcome.completes,
      Outcome.state]
  · simp [mem_access, hload, hstore, hcsr, h, dmem_write, hwin1, Outcome.completes,
      Outcome.state, e1]
  · simp [mem_access, hload, hstore, hcsr, h, dmem_write, hwin1, Outcome.completes,
      Outcome.state, e2]


/-! ## Memory access unit: loads and the store/load round trip -/

/-- C9: on a load (`is_load` set, `is_store` and `is_csr` clear), with `r` the raw
little-endian value of the 1, 2 or 4 bytes at the address, `mem_access` returns
the 32-bit sign extension of the low 8 bits of `r` for `func3 = 0` (which is
`0xFFFFFF00 + r` when `r >= 0x80`), the sign extension of the low 16 bits for
`func3 = 1`, `r` itself for `func3 = 2`, `r mod 2^8` for `func3 = 4` and
`r mod 2^16` for `func3 = 5`. -/
theorem mem_access_load (c : Config) (instr : Instr) (addr rs2_data : Nat) (s : Core)
    (hload : instr.exe_flags.is_load = true) (hstore : instr.exe_flags.is_store = false)
    (hcsr : instr.exe_flags.is_csr = false) :
    (instr.func3 = 0 →
      (mem_access c instr addr rs2_data s).value = some (signExtend32 8 (mmu_read s.mem addr 1))
      ∧ (0x80 ≤ mmu_read s.mem addr 1 →
        (mem_access c instr addr rs2_data s).value = some (0xFFFFFF00 + mmu_read s.mem addr 1)))
    ∧ (instr.func3 = 1 →
      (mem_access c instr addr rs2_data s).value = some (signExtend32 16 (mmu_read s.mem addr 2)))
    ∧ (instr.func3 = 2 →
      (mem_access c instr addr rs2_data s).value = some (mmu_read s.mem addr 4))
    ∧ (instr.func3 = 4 →
      (mem_access c instr addr rs2_data s).value = some (mmu_read s.mem addr 1 % 2 ^ 8)
      ∧ mmu_read s.mem addr 1 % 2 ^ 8 < 256)
    ∧ (instr.func3 = 5 →
      (mem_access c instr addr rs2_data s).value = some (mmu_read s.mem addr 2 % 2 ^ 16)
      ∧ mmu_read s.mem addr 2 % 2 ^ 16 < 65536) := by
  obtain ⟨h0, h1, h2, h4, h5⟩ := mem_access_load_value c instr addr rs2_data s hload hstore hcsr
  have r1 : mmu_read s.mem addr 1 < 2 ^ 8 := by
    have := mmu_read_lt s.mem 1 addr
    norm_num at this ⊢
    exact this
  have r2 : mmu_read s.mem addr 2 < 2 ^ 16 := by
    have := mmu_read_lt s.mem 2 addr
    norm_num at this ⊢
    exact this
  refine ⟨fun h => ⟨?_, fun hr => ?_⟩, fun h => ?_, h2, fun h => ⟨h4 h, ?_⟩, fun h => ⟨h5 h, ?_⟩⟩
  · rw [h0 h, sext_eq_signExtend32 8 _ (by norm_num) (by norm_num) r1]
  · rw [h0 h, sext_eq 8 _ (by norm_num) (by norm_num) r1, if_neg (by norm_num; omega)]
    norm_num
    omega
  · rw [h1 h, sext_eq_signExtend32 16 _ (by norm_num) (by norm_num) r2]
  · exact Nat.mod_lt _ (by norm_num)
  · exact Nat.mod_lt _ (by norm_num)

theorem mem_access_load_witness :
    (mem_access rvConfig (Instr.load 0) 0x1000 0 (Core.withByte 0x1000 0x80)).value
      = some 0xFFFFFF80
    ∧ (mem_access rvConfig (Instr.load 4) 0x1000 0 (Core.withByte 0x1000 0x80)).value
      = some 0x80 :=
  ⟨((mem_access_load rvConfig (Instr.load 0) 0x1000 0 (Core.withByte 0x1000 0x80)
      rfl rfl rfl).1 rfl).2 (by decide),
   ((mem_access_load rvConfig (Instr.load 4) 0x1000 0 (Core.withByte 0x1000 0x80)
      rfl rfl rfl).2.2.2.1 rfl).1⟩

/-- C10: outside the console window, a store of the 32-bit value `v` through
`mem_access` returns, and a load from the same address then gives: after a byte
store the sign extension of `v mod 2^8` for `func3 = 0` and `v mod 2^8` for
`func3 = 4`; after a halfword store the sign extension of `v mod 2^16` for
`func3 = 1` and `v mod 2^16` for `func3 = 5`; after a word store `v` for
`func3 = 2`. -/
theorem store_load_roundtrip (c : Config) (st ld : Instr) (addr v rs2_data : Nat) (s : Core)
    (hst : st.exe_flags.is_store = true ∧ st.exe_flags.is_load = false
      ∧ st.exe_flags.is_csr = false)
    (hld : ld.exe_flags.is_load = true ∧ ld.exe_flags.is_store = false
      ∧ ld.exe_flags.is_csr = false)
    (hwin : ¬ (c.IO_COUT_ADDR ≤ addr ∧ addr < c.IO_COUT_ADDR + c.IO_COUT_SIZE))
    (hv : v < 2 ^ 32) :
    (st.func3 = 0 ∨ st.func3 = 1 ∨ st.func3 = 2 → (mem_access c st addr v s).completes = true)
    ∧ (st.func3 = 0 → ld.func3 = 0 →
      (mem_access c ld addr rs2_data (mem_access c st addr v s).state).value
        = some (signExtend32 8 (v % 2 ^ 8)))
    ∧ (st.func3 = 0 → ld.func3 = 4 →
      (mem_access c ld addr rs2_data (mem_access c st addr v s).state).value = some (v % 2 ^ 8))
    ∧ (st.func3 = 1 → ld.func3 = 1 →
      (mem_access c ld addr rs2_data (mem_access c st addr v s).state).value
        = some (signExtend32 16 (v % 2 ^ 16)))
    ∧ (st.func3 = 1 → ld.func3 = 5 →
      (mem_access c ld addr rs2_data (mem_access c st addr v s).state).value = some (v % 2 ^ 16))
    ∧ (st.func3 = 2 → ld.func3 = 2 →
      (mem_access c ld addr rs2_data (mem_access c st addr v s).state).value = some v) := by
  obtain ⟨hs1, hs2, hs3⟩ := hst
  obtain ⟨hl1, hl2, hl3⟩ := hld
  have hstore := fun hf => mem_access_store c st addr v s hs1 hs2 hs3 hwin hf
  obtain ⟨k0, k1, k2, k4, k5⟩ := mem_access_load_value c ld addr rs2_data
    (mem_access c st addr v s).state hl1 hl2 hl3
  have rw8 : ∀ x : Nat, signExtend32 8 (x % 2 ^ 8) = sext (x % 2 ^ 8) 8 := fun x =>
    (sext_eq_signExtend32 8 _ (by norm_num) (by norm_num) (Nat.mod_lt _ (by norm_num))).symm
  have rw16 : ∀ x : Nat, signExtend32 16 (x % 2 ^ 16) = sext (x % 2 ^ 16) 16 := fun x =>
    (sext_eq_signExtend32 16 _ (by norm_num) (by norm_num) (Nat.mod_lt _ (by norm_num))).symm
  refine ⟨fun hf => (hstore hf).1, ?_, ?_, ?_, ?_, ?_⟩ <;> intro hsf hlf
  · have hm := (hstore (Or.inl hsf)).2
    rw [k0 hlf, hm, hsf, rw8]
    simp [mmu_read_write]
  · have hm := (hstore (Or.inl hsf)).2
    rw [k4 hlf, hm, hsf]
    simp [mmu_read_write]
  · have hm := (hstore (Or.inr (Or.inl hsf))).2
    rw [k1 hlf, hm, hsf, rw16]
    simp [mmu_read_write]
  · have hm := (hstore (Or.inr (Or.inl hsf))).2
    rw [k5 hlf, hm, hsf]
    simp [mmu_read_write]
  · have hm := (hstore (Or.inr (Or.inr hsf))).2
    rw [k2 hlf, hm, hsf]
    simp [mmu_read_write]
    simpa using hv

theorem store_load_roundtrip_witness :
    (mem_access rvConfig (Instr.load 0) 0x1000 0
        (mem_access rvConfig (Instr.store 0) 0x1000 0xFF Core.init).state).value = some 0xFFFFFFFF
    ∧ (mem_access rvConfig (Instr.load 4) 0x1000 0
        (mem_access rvConfig (Instr.store 0) 0x1000 0xFF Core.init).state).value = some 0x000000FF :=
  have h := store_load_roundtrip rvConfig (Instr.store 0) (Instr.load 0) 0x1000 0xFF 0 Core.init
    ⟨rfl, rfl, rfl⟩ ⟨rfl, rfl, rfl⟩ (by decide) (by decide)
  have h4 := store_load_roundtrip rvConfig (Instr.store 0) (Instr.load 4) 0x1000 0xFF 0 Core.init
    ⟨rfl, rfl, rfl⟩ ⟨rfl, rfl, rfl⟩ (by decide) (by decide)
  ⟨h.2.1 rfl rfl, h4.2.2.1 rfl rfl⟩

/-! ## Branch unit: pass-through of the result and the exempt jump kind -/

/-- C18: for the kind `NONE` and the six conditional kinds, `branch_unit` returns the
incoming `rd_data`, for all operands, program counters and states, whether the
branch is taken or not and whether the fetch latch is flushed or not. -/
theorem branch_unit_passthrough (instr : Instr) (rs1_data rs2_data rd_data PC : Nat) (s : Core)
    (h : instr.br_op = BrOp.NONE ∨ instr.br_op.isConditional = true) :
    (branch_unit instr rs1_data rs2_data rd_data PC s).value = some rd_data := by
  rcases h with h | h
  · simp [branch_unit, h, br_taken, Outcome.value]
  · have ht := br_taken_conditional instr.br_op rs1_data rs2_data h
    have hj : ¬ (instr.br_op = BrOp.JAL ∨ instr.br_op = BrOp.JALR) := by
      rintro (e | e) <;> rw [e] at h <;> simp [BrOp.isConditional] at h
    simp only [branch_unit, ht, if_neg hj]
    split_ifs <;> rfl

theorem branch_unit_passthrough_witness :
    (branch_unit { Instr.nop with br_op := BrOp.BLT } 0x80000000 0x7FFFFFFF 0x100 0x40
        Core.init).value = some 0x100
    ∧ (branch_unit { Instr.nop with br_op := BrOp.BLTU } 0x80000000 0x7FFFFFFF 0x100 0x40
        Core.init).value = some 0x100 :=
  ⟨branch_unit_passthrough { Instr.nop with br_op := BrOp.BLT } 0x80000000 0x7FFFFFFF 0x100 0x40
      Core.init (Or.inr rfl),
   branch_unit_passthrough { Instr.nop with br_op := BrOp.BLTU } 0x80000000 0x7FFFFFFF 0x100 0x40
      Core.init (Or.inr rfl)⟩

/-- C20: for the kind `JAL` `branch_unit` returns with `PC_`, the fetch/decode latch
and `fetch_stalled_` as they were, for every program counter and every target,
sequential or not; for the kind `JALR` a target other than `(PC + 4) mod 2^32`
is written to `PC_`, the latch is emptied and `fetch_stalled_` is cleared. -/
theorem branch_unit_jal_exempt (instr : Instr) (rs1_data rs2_data rd_data PC : Nat) (s : Core) :
    (instr.br_op = BrOp.JAL →
      (branch_unit instr rs1_data rs2_data rd_data PC s).completes = true
      ∧ (branch_unit instr rs1_data rs2_data rd_data PC s).state.PC_ = s.PC_
      ∧ (branch_unit instr rs1_data rs2_data rd_data PC s).state.if_id_ = s.if_id_
      ∧ (branch_unit instr rs1_data rs2_data rd_data PC s).state.fetch_stalled_ = s.fetch_stalled_)
    ∧ (instr.br_op = BrOp.JALR → rd_data ≠ (PC + 4) % 2 ^ 32 →
      (branch_unit instr rs1_data rs2_data rd_data PC s).state.PC_ = rd_data
      ∧ (branch_unit instr rs1_data rs2_data rd_data PC s).state.if_id_ = none
      ∧ (branch_unit instr rs1_data rs2_data rd_data PC s).state.fetch_stalled_ = false) := by
  constructor
  · intro h
    simp [branch_unit, h, br_taken, Outcome.completes, Outcome.state]
  · intro h ht
    have ht1 : ¬ rd_data = (PC + 4) % 4294967296 := by simpa using ht
    simp [branch_unit, h, br_taken, ht1, Outcome.state]

theorem branch_unit_jal_exempt_witness :
    ((branch_unit { Instr.nop with br_op := BrOp.JAL } 0 0 0x2000 0x40
        { Core.init with PC_ := 0x48, if_id_ := some ⟨0x13, 7⟩, fetch_stalled_ := true }).state.PC_
        = 0x48
      ∧ (branch_unit { Instr.nop with br_op := BrOp.JAL } 0 0 0x2000 0x40
        { Core.init with PC_ := 0x48, if_id_ := some ⟨0x13, 7⟩, fetch_stalled_ := true }).state.if_id_
        = some ⟨0x13, 7⟩
      ∧ (branch_unit { Instr.nop with br_op := BrOp.JAL } 0 0 0x2000 0x40
        { Core.init with PC_ := 0x48, if_id_ := some ⟨0x13, 7⟩, fetch_stalled_ := true }).state.fetch_stalled_
        = true)
    ∧ ((branch_unit { Instr.nop with br_op := BrOp.JALR } 0 0 0x2000 0x40
        { Core.init with PC_ := 0x48, if_id_ := some ⟨0x13, 7⟩, fetch_stalled_ := true }).state.PC_
        = 0x2000
      ∧ (branch_unit { Instr.nop with br_op := BrOp.JALR } 0 0 0x2000 0x40
        { Core.init with PC_ := 0x48, if_id_ := some ⟨0x13, 7⟩, fetch_stalled_ := true }).state.if_id_
        = none
      ∧ (branch_unit { Instr.nop with br_op := BrOp.JALR } 0 0 0x2000 0x40
        { Core.init with PC_ := 0x48, if_id_ := some ⟨0x13, 7⟩, fetch_stalled_ := true }).state.fetch_stalled_
        = false) :=
  ⟨((branch_unit_jal_exempt { Instr.nop with br_op := BrOp.JAL } 0 0 0x2000 0x40
      { Core.init with PC_ := 0x48, if_id_ := some ⟨0x13, 7⟩, fetch_stalled_ := true }).1 rfl).2,
   (branch_unit_jal_exempt { Instr.nop with br_op := BrOp.JALR } 0 0 0x2000 0x40
      { Core.init with PC_ := 0x48, if_id_ := some ⟨0x13, 7⟩, fetch_stalled_ := true }).2 rfl
      (by decide)⟩

/-! ## Arithmetic/logic unit: shifts, comparisons, totality, operand selection -/

theorem and_31 (b : Nat) : b &&& 0x1F = b % 32 := Nat.and_pow_two_sub_one_eq_mod b 5

/-- The code's operand selection is the one of the specification: the result on a
flagged instruction is the result of the same tag on the selected operands. -/
theorem alu_unit_eq (instr : Instr) (rs1_data rs2_data PC : Nat) (s : Core) :
    alu_unit instr rs1_data rs2_data PC s =
      alu_unit (Instr.alu instr.alu_op) (firstOperand instr rs1_data PC)
        (secondOperand instr rs2_data) 0 s := by
  cases h : instr.alu_op <;>
    simp [alu_unit, firstOperand, secondOperand, Instr.alu, Instr.nop, h]

/-- C14: with `a` and `b` the selected operands and `n = b mod 32`, `alu_unit` gives
`(a * 2^n) mod 2^32` for `SLL`, `a / 2^n` rounded down for `SRL`, and for `SRA`
the floor of `s / 2^n` reduced modulo `2^32`, with `s` the operand read as a
two's-complement signed integer.  A shift by `b` is the shift by `b mod 32`. -/
theorem alu_unit_shifts (instr : Instr) (rs1_data rs2_data PC : Nat) (s : Core) :
    (instr.alu_op = AluOp.SLL →
      (alu_unit instr rs1_data rs2_data PC s).value
        = some (firstOperand instr rs1_data PC * 2 ^ (secondOperand instr rs2_data % 32) % 2 ^ 32))
    ∧ (instr.alu_op = AluOp.SRL →
      (alu_unit instr rs1_data rs2_data PC s).value
        = some (firstOperand instr rs1_data PC / 2 ^ (secondOperand instr rs2_data % 32)))
    ∧ (instr.alu_op = AluOp.SRA →
      (alu_unit instr rs1_data rs2_data PC s).value
        = some (((signed32 (firstOperand instr rs1_data PC)).fdiv
            (2 ^ (secondOperand instr rs2_data % 32)) % 2 ^ 32).toNat))
    ∧ (instr.alu_op = AluOp.SLL ∨ instr.alu_op = AluOp.SRL ∨ instr.alu_op = AluOp.SRA →
      instr.exe_flags.alu_s2_imm = false →
      alu_unit instr rs1_data rs2_data PC s = alu_unit instr rs1_data (rs2_data % 32) PC s) := by
  refine ⟨?_, ?_, ?_, ?_⟩
  · intro h
    rw [alu_unit_eq, h]
    simp [alu_unit, Instr.alu, Instr.nop, Outcome.value, and_31, Nat.shiftLeft_eq]
  · intro h
    rw [alu_unit_eq, h]
    simp [alu_unit, Instr.alu, Instr.nop, Outcome.value, and_31, Nat.shiftRight_eq_div_pow]
  · intro h
    rw [alu_unit_eq, h]
    simp only [alu_unit, Instr.alu, Instr.nop, Outcome.value, toUInt32, and_31,
      toInt32_eq_signed32, Bool.false_eq_true, if_false]
    rw [Int.shiftRight_eq_div_pow, Int.fdiv_eq_ediv]
    · norm_num
    · positivity
  · intro h himm
    rcases h with h | h | h <;>
      simp [alu_unit, h, himm, and_31, Nat.mod_mod]

theorem alu_unit_shifts_witness :
    (alu_unit (Instr.alu AluOp.SRA) 0x80000000 1 0 Core.init).value = some 0xC0000000
    ∧ alu_unit (Instr.alu AluOp.SLL) 0x80000001 33 0 Core.init
      = alu_unit (Instr.alu AluOp.SLL) 0x80000001 1 0 Core.init :=
  ⟨(alu_unit_shifts (Instr.alu AluOp.SRA) 0x80000000 1 0 Core.init).2.2.1 rfl,
   (alu_unit_shifts (Instr.alu AluOp.SLL) 0x80000001 33 0 Core.init).2.2.2 (Or.inl rfl) rfl⟩

/-- C15: with `a` and `b` the selected operands, `alu_unit` returns for `LTI` 1 if
`a < b` as two's-complement signed 32-bit integers and 0 otherwise, for `LTU` 1
if `a < b` as unsigned integers and 0 otherwise; the result is 0 or 1. -/
theorem alu_unit_less_than (instr : Instr) (rs1_data rs2_data PC : Nat) (s : Core) :
    (instr.alu_op = AluOp.LTI →
      (alu_unit instr rs1_data rs2_data PC s).value
        = some (if signed32 (firstOperand instr rs1_data PC)
                    < signed32 (secondOperand instr rs2_data) then 1 else 0))
    ∧ (instr.alu_op = AluOp.LTU →
      (alu_unit instr rs1_data rs2_data PC s).value
        = some (if firstOperand instr rs1_data PC < secondOperand instr rs2_data then 1 else 0))
    ∧ (instr.alu_op = AluOp.LTI ∨ instr.alu_op = AluOp.LTU →
      (alu_unit instr rs1_data rs2_data PC s).value = some 0
      ∨ (alu_unit instr rs1_data rs2_data PC s).value = some 1) := by
  have hi : instr.alu_op = AluOp.LTI →
      (alu_unit instr rs1_data rs2_data PC s).value
        = some (if signed32 (firstOperand instr rs1_data PC)
                    < signed32 (secondOperand instr rs2_data) then 1 else 0) := by
    intro h
    rw [alu_unit_eq, h]
    simp [alu_unit, Instr.alu, Instr.nop, Outcome.value, toInt32_eq_signed32]
  have hu : instr.alu_op = AluOp.LTU →
      (alu_unit instr rs1_data rs2_data PC s).value
        = some (if firstOperand instr rs1_data PC < secondOperand instr rs2_data then 1 else 0) := by
    intro h
    rw [alu_unit_eq, h]
    simp [alu_unit, Instr.alu, Instr.nop, Outcome.value]
  refine ⟨hi, hu, ?_⟩
  rintro (h | h)
  · rw [hi h]; split_ifs <;> simp
  · rw [hu h]; split_ifs <;> simp

theorem alu_unit_less_than_witness :
    (alu_unit (Instr.alu AluOp.LTU) 0 0xFFFFFFFF 0 Core.init).value = some 1
    ∧ (alu_unit (Instr.alu AluOp.LTI) 0 0xFFFFFFFF 0 Core.init).value = some 0 :=
  ⟨(alu_unit_less_than (Instr.alu AluOp.LTU) 0 0xFFFFFFFF 0 Core.init).2.1 rfl,
   (alu_unit_less_than (Instr.alu AluOp.LTI) 0 0xFFFFFFFF 0 Core.init).1 rfl⟩

/-- C16: for each of the eleven defined tags `alu_unit` returns and leaves the core
state as it was; with `a` and `b` the selected operands the value is
`(a + b) mod 2^32` for `ADD`, `(a - b) mod 2^32` for `SUB`, the bitwise and, or
and exclusive or of `a` and `b` for `AND`, `OR` and `XOR`, and 0 for `NONE`. -/
theorem alu_unit_total (instr : Instr) (rs1_data rs2_data PC : Nat) (s : Core) :
    (instr.alu_op.isDefined = true →
      (alu_unit instr rs1_data rs2_data PC s).completes = true
      ∧ (alu_unit instr rs1_data rs2_data PC s).state = s)
    ∧ (instr.alu_op = AluOp.ADD →
      (alu_unit instr rs1_data rs2_data PC s).value
        = some ((firstOperand instr rs1_data PC + secondOperand instr rs2_data) % 2 ^ 32))
    ∧ (instr.alu_op = AluOp.SUB →
      (alu_unit instr rs1_data rs2_data PC s).value
        = some ((((firstOperand instr rs1_data PC : Int) - (secondOperand instr rs2_data : Int))
            % 2 ^ 32).toNat))
    ∧ (instr.alu_op = AluOp.AND →
      (alu_unit instr rs1_data rs2_data PC s).value
        = some (firstOperand instr rs1_data PC &&& secondOperand instr rs2_data))
    ∧ (instr.alu_op = AluOp.OR →
      (alu_unit instr rs1_data rs2_data PC s).value
        = some (firstOperand instr rs1_data PC ||| secondOperand instr rs2_data))
    ∧ (instr.alu_op = AluOp.XOR →
      (alu_unit instr rs1_data rs2_data PC s).value
        = some (firstOperand instr rs1_data PC ^^^ secondOperand instr rs2_data))
    ∧ (instr.alu_op = AluOp.NONE →
      (alu_unit instr rs1_data rs2_data PC s).value = some 0) := by
  refine ⟨?_, ?_, ?_, ?_, ?_, ?_, ?_⟩
  · intro h
    rw [alu_unit_eq]
    cases hop : instr.alu_op <;>
      simp [hop, AluOp.isDefined, alu_unit, Instr.alu, Instr.nop, Outcome.completes,
        Outcome.state] at h ⊢
  · intro h
    rw [alu_unit_eq, h]
    simp [alu_unit, Instr.alu, Instr.nop, Outcome.value]
  · intro h
    rw [alu_unit_eq, h]
    simp only [alu_unit, Instr.alu, Instr.nop, Outcome.value, Bool.false_eq_true, if_false]
    congr 1
    omega
  · intro h
    rw [alu_unit_eq, h]
    simp [alu_unit, Instr.alu, Instr.nop, Outcome.value]
  · intro h
    rw [alu_unit_eq, h]
    simp [alu_unit, Instr.alu, Instr.nop, Outcome.value]
  · intro h
    rw [alu_unit_eq, h]
    simp [alu_unit, Instr.alu, Instr.nop, Outcome.value]
  · intro h
    rw [alu_unit_eq, h]
    simp [alu_unit, Instr.alu, Instr.nop, Outcome.value]

theorem alu_unit_total_witness :
    ((alu_unit (Instr.alu AluOp.SRA) 0x80000000 1 0x40 Core.init).completes = true
      ∧ (alu_unit (Instr.alu AluOp.SRA) 0x80000000 1 0x40 Core.init).state = Core.init)
    ∧ (alu_unit (Instr.alu AluOp.ADD) 0xFFFFFFFF 2 0x40 Core.init).value = some 1
    ∧ (alu_unit (Instr.alu AluOp.SUB) 1 2 0x40 Core.init).value = some 0xFFFFFFFF
    ∧ (alu_unit (Instr.alu AluOp.XOR) 0xFF00 0x0FF0 0x40 Core.init).value = some 0xF0F0 :=
  ⟨(alu_unit_total (Instr.alu AluOp.SRA) 0x80000000 1 0x40 Core.init).1 rfl,
   (alu_unit_total (Instr.alu AluOp.ADD) 0xFFFFFFFF 2 0x40 Core.init).2.1 rfl,
   (alu_unit_total (Instr.alu AluOp.SUB) 1 2 0x40 Core.init).2.2.1 rfl,
   (alu_unit_total (Instr.alu AluOp.XOR) 0xFF00 0x0FF0 0x40 Core.init).2.2.2.2.2.1 rfl⟩

/-- C17: for every flag combination and every tag, `alu_unit` returns the value the
specification gives the tag on these two operands: the first is `PC` if
`alu_s1_PC` is set (also when `alu_s1_rs1` is set), else the register-index
field if `alu_s1_rs1` is set, else `rs1_data`, and it is complemented bitwise
if `alu_s1_inv` is set, whichever source was selected; the second is the
immediate if `alu_s2_imm` is set, else `rs2_data`.  So the result does not
depend on `rs1_data` when `alu_s1_PC` or `alu_s1_rs1` is set, nor on `rs2_data`
when `alu_s2_imm` is set. -/
theorem alu_unit_operands (instr : Instr) (rs1_data rs2_data PC : Nat) (s : Core) :
    (alu_unit instr rs1_data rs2_data PC s =
      match aluSpec instr.alu_op
          (if instr.exe_flags.alu_s1_inv then
            complement32 (if instr.exe_flags.alu_s1_PC then PC
                          else if instr.exe_flags.alu_s1_rs1 then instr.rs1 else rs1_data)
           else (if instr.exe_flags.alu_s1_PC then PC
                 else if instr.exe_flags.alu_s1_rs1 then instr.rs1 else rs1_data))
          (if instr.exe_flags.alu_s2_imm then instr.imm else rs2_data) with
      | some v => Outcome.done v s
      | none => Outcome.aborted s)
    ∧ alu_unit instr rs1_data rs2_data PC s
      = alu_unit (Instr.alu instr.alu_op)
          (if instr.exe_flags.alu_s1_inv then
            not32 (if instr.exe_flags.alu_s1_PC then PC
                   else if instr.exe_flags.alu_s1_rs1 then instr.rs1 else rs1_data)
           else (if instr.exe_flags.alu_s1_PC then PC
                 else if instr.exe_flags.alu_s1_rs1 then instr.rs1 else rs1_data))
          (if instr.exe_flags.alu_s2_imm then instr.imm else rs2_data) 0 s
    ∧ (instr.exe_flags.alu_s1_PC = true ∨ instr.exe_flags.alu_s1_rs1 = true →
      ∀ r : Nat, alu_unit instr r rs2_data PC s = alu_unit instr rs1_data rs2_data PC s)
    ∧ (instr.exe_flags.alu_s2_imm = true →
      ∀ r : Nat, alu_unit instr rs1_data r PC s = alu_unit instr rs1_data rs2_data PC s) := by
  have hnot : ∀ x : Nat, not32 x = complement32 x := by
    intro x
    unfold not32 complement32
    rw [BitVec.toNat_not, BitVec.toNat_ofNat]
  have hsub : ∀ a b : Nat,
      (a % 2 ^ 32 + (2 ^ 32 - b % 2 ^ 32)) % 2 ^ 32 = (((a : Int) - (b : Int)) % 2 ^ 32).toNat := by
    intro a b
    omega
  have hsra : ∀ (i : Int) (n : Nat),
      toUInt32 (i >>> n) = (i.fdiv (2 ^ n) % 2 ^ 32).toNat := by
    intro i n
    unfold toUInt32
    rw [Int.shiftRight_eq_div_pow, Int.fdiv_eq_ediv]
    · norm_num
    · positivity
  refine ⟨?_, ?_, ?_, ?_⟩
  · cases hop : instr.alu_op <;>
      simp only [alu_unit, aluSpec, hop, hnot, hsub, hsra, and_31, Nat.shiftLeft_eq,
        Nat.shiftRight_eq_div_pow, toInt32_eq_signed32]
  · cases hop : instr.alu_op <;>
      simp [alu_unit, Instr.alu, Instr.nop, hop]
  · intro h r
    rcases h with h | h
    · simp [alu_unit, h]
    · by_cases hp : instr.exe_flags.alu_s1_PC = true <;> simp [alu_unit, h, hp]
  · intro h r
    simp [alu_unit, h]

theorem alu_unit_operands_witness :
    alu_unit { Instr.nop with
        exe_flags := { Instr.nop.exe_flags with
          alu_s1_PC := true, alu_s1_rs1 := true, alu_s1_inv := true, alu_s2_imm := true },
        alu_op := AluOp.SUB, rs1 := 5, imm := 1 } 0x1111 0x2222 0x40 Core.init
      = Outcome.done 0xFFFFFFBE Core.init
    ∧ alu_unit { Instr.nop with
        exe_flags := { Instr.nop.exe_flags with alu_s1_rs1 := true },
        alu_op := AluOp.SUB, rs1 := 5, imm := 1 } 0x1111 0x2222 0x40 Core.init
      = Outcome.done 0xFFFFDDE3 Core.init
    ∧ alu_unit { Instr.nop with
        exe_flags := { Instr.nop.exe_flags with
          alu_s1_PC := true, alu_s1_rs1 := true, alu_s1_inv := true, alu_s2_imm := true },
        alu_op := AluOp.SUB, rs1 := 5, imm := 1 } 0x9999 0x2222 0x40 Core.init
      = alu_unit { Instr.nop with
        exe_flags := { Instr.nop.exe_flags with
          alu_s1_PC := true, alu_s1_rs1 := true, alu_s1_inv := true, alu_s2_imm := true },
        alu_op := AluOp.SUB, rs1 := 5, imm := 1 } 0x1111 0x2222 0x40 Core.init
    ∧ alu_unit { Instr.nop with
        exe_flags := { Instr.nop.exe_flags with
          alu_s1_PC := true, alu_s1_rs1 := true, alu_s1_inv := true, alu_s2_imm := true },
        alu_op := AluOp.SUB, rs1 := 5, imm := 1 } 0x1111 0x7777 0x40 Core.init
      = alu_unit { Instr.nop with
        exe_flags := { Instr.nop.exe_flags with
          alu_s1_PC := true, alu_s1_rs1 := true, alu_s1_inv := true, alu_s2_imm := true },
        alu_op := AluOp.SUB, rs1 := 5, imm := 1 } 0x1111 0x2222 0x40 Core.init :=
  ⟨(alu_unit_operands { Instr.nop with
        exe_flags := { Instr.nop.exe_flags with
          alu_s1_PC := true, alu_s1_rs1 := true, alu_s1_inv := true, alu_s2_imm := true },
        alu_op := AluOp.SUB, rs1 := 5, imm := 1 } 0x1111 0x2222 0x40 Core.init).1,
   (alu_unit_operands { Instr.nop with
        exe_flags := { Instr.nop.exe_flags with alu_s1_rs1 := true },
        alu_op := AluOp.SUB, rs1 := 5, imm := 1 } 0x1111 0x2222 0x40 Core.init).1,
   (alu_unit_operands { Instr.nop with
        exe_flags := { Instr.nop.exe_flags with
          alu_s1_PC := true, alu_s1_rs1 := true, alu_s1_inv := true, alu_s2_imm := true },
        alu_op := AluOp.SUB, rs1 := 5, imm := 1 } 0x1111 0x2222 0x40 Core.init).2.2.1
      (Or.inl rfl) 0x9999,
   (alu_unit_operands { Instr.nop with
        exe_flags := { Instr.nop.exe_flags with
          alu_s1_PC := true, alu_s1_rs1 := true, alu_s1_inv := true, alu_s2_imm := true },
        alu_op := AluOp.SUB, rs1 := 5, imm := 1 } 0x1111 0x2222 0x40 Core.init).2.2.2
      rfl 0x7777⟩

/-! ## Memory access unit: console window, CSR path, width codes -/

/-- The window test of `dmem_write` is the half-open window when the window ends
inside the 64-bit address space. -/
theorem dmem_write_test (c : Config) (addr : Nat) (hc : c.IO_COUT_ADDR + c.IO_COUT_SIZE < 2 ^ 64) :
    (addr ≥ c.IO_COUT_ADDR ∧ addr < (c.IO_COUT_ADDR + c.IO_COUT_SIZE) % 2 ^ 64)
      ↔ c.inConsoleWindow addr := by
  rw [Nat.mod_eq_of_lt hc]
  rfl

/-- C11: `dmem_write` hands the data to the console sink and leaves the backing
memory alone, issuing no memory request, exactly when the start address is in
`[IO_COUT_ADDR, IO_COUT_ADDR + IO_COUT_SIZE)`; at every other address it issues
one memory write of the given size at the address and the console gets nothing.
A store through `mem_access` is this call with the size of the width code. -/
theorem dmem_write_console (c : Config) (instr : Instr) (data addr size : Nat) (s : Core)
    (hc : c.IO_COUT_ADDR + c.IO_COUT_SIZE < 2 ^ 64) :
    (c.inConsoleWindow addr →
      (dmem_write c data addr size s).cout = s.cout ++ [data]
      ∧ (dmem_write c data addr size s).mem = s.mem
      ∧ (dmem_write c data addr size s).mmu_log = s.mmu_log)
    ∧ (¬ c.inConsoleWindow addr →
      (dmem_write c data addr size s).cout = s.cout
      ∧ (dmem_write c data addr size s).mmu_log = s.mmu_log ++ [MmuReq.write addr size]
      ∧ (dmem_write c data addr size s).mem = mmu_write s.mem data addr size)
    ∧ (((dmem_write c data addr size s).cout = s.cout ++ [data]
        ∧ (dmem_write c data addr size s).mem = s.mem) ↔ c.inConsoleWindow addr)
    ∧ (instr.exe_flags.is_store = true → instr.exe_flags.is_load = false →
      instr.exe_flags.is_csr = false →
      instr.func3 = 0 ∨ instr.func3 = 1 ∨ instr.func3 = 2 →
      mem_access c instr addr data s
        = Outcome.done addr (dmem_write c data addr (2 ^ instr.func3) s)) := by
  have ht := dmem_write_test c addr hc
  have hin : c.inConsoleWindow addr →
      dmem_write c data addr size s = { s with cout := s.cout ++ [data] } := by
    intro h
    unfold dmem_write
    rw [if_pos (ht.mpr h)]
  have hout : ¬ c.inConsoleWindow addr →
      dmem_write c data addr size s
        = { s with mem := mmu_write s.mem data addr size,
                   mmu_log := s.mmu_log ++ [MmuReq.write addr size] } := by
    intro h
    unfold dmem_write
    rw [if_neg (fun h1 => h (ht.mp h1))]
  refine ⟨fun h => ?_, fun h => ?_, ?_, ?_⟩
  · rw [hin h]; exact ⟨rfl, rfl, rfl⟩
  · rw [hout h]; exact ⟨rfl, rfl, rfl⟩
  · by_cases h : c.inConsoleWindow addr
    · rw [hin h]; simp [h]
    · rw [hout h]; simp [h]
  · intro hs hl hcsr hf
    have e1 : (1 &&& 3 : Nat) = 1 := by decide
    have e2 : (2 &&& 3 : Nat) = 2 := by decide
    rcases hf with h | h | h <;> simp [mem_access, hs, hl, hcsr, h, e1, e2]

theorem dmem_write_console_witness :
    ((dmem_write rvConfig 0x41 0x7F 1 Core.init).cout = [0x41]
      ∧ (dmem_write rvConfig 0x41 0x7F 1 Core.init).mem = Core.init.mem
      ∧ (dmem_write rvConfig 0x41 0x7F 1 Core.init).mmu_log = [])
    ∧ ((dmem_write rvConfig 0x41 0x80 1 Core.init).cout = []
      ∧ (dmem_write rvConfig 0x41 0x80 1 Core.init).mmu_log = [MmuReq.write 0x80 1]
      ∧ (dmem_write rvConfig 0x41 0x80 1 Core.init).mem = mmu_write Core.init.mem 0x41 0x80 1)
    ∧ mem_access rvConfig (Instr.store 0) 0x7F 0x41 Core.init
      = Outcome.done 0x7F (dmem_write rvConfig 0x41 0x7F 1 Core.init) :=
  ⟨(dmem_write_console rvConfig (Instr.store 0) 0x41 0x7F 1 Core.init (by decide)).1 (by decide),
   (dmem_write_console rvConfig (Instr.store 0) 0x41 0x80 1 Core.init (by decide)).2.1 (by decide),
   (dmem_write_console rvConfig (Instr.store 0) 0x41 0x7F 1 Core.init (by decide)).2.2.2
      rfl rfl rfl (Or.inl rfl)⟩

/-- C12: on a CSR-class instruction (`is_csr` set, `is_load` and `is_store` clear)
`mem_access` calls `set_csr` at the address `imm` exactly when `rs2_data` differs
from `rd_data`, and returns `rs2_data` whenever it returns.  It aborts exactly
when `rs2_data` differs from `rd_data` and `imm` is not a label of `set_csr`;
with `rs2_data = rd_data` it returns for every `imm`, the state untouched. -/
theorem mem_access_csr (c : Config) (instr : Instr) (rd_data rs2_data : Nat) (s : Core)
    (hcsr : instr.exe_flags.is_csr = true) (hload : instr.exe_flags.is_load = false)
    (hstore : instr.exe_flags.is_store = false) :
    (rs2_data ≠ rd_data →
      mem_access c instr rd_data rs2_data s =
        match set_csr c instr.imm rd_data s with
        | Outcome.done _ s1 => Outcome.done rs2_data s1
        | Outcome.aborted s1 => Outcome.aborted s1)
    ∧ (rs2_data = rd_data → mem_access c instr rd_data rs2_data s = Outcome.done rs2_data s)
    ∧ (∀ v : Nat, (mem_access c instr rd_data rs2_data s).value = some v → v = rs2_data)
    ∧ ((mem_access c instr rd_data rs2_data s).completes = false
        ↔ rs2_data ≠ rd_data ∧ instr.imm ∉ c.writeLabels) := by
  have hne : rs2_data ≠ rd_data →
      mem_access c instr rd_data rs2_data s =
        match set_csr c instr.imm rd_data s with
        | Outcome.done _ s1 => Outcome.done rs2_data s1
        | Outcome.aborted s1 => Outcome.aborted s1 := by
    intro h
    simp only [mem_access, hcsr, hload, hstore, Bool.false_eq_true, if_false, if_true]
    rw [if_pos h]
    cases set_csr c instr.imm rd_data s <;> rfl
  have heq : rs2_data = rd_data →
      mem_access c instr rd_data rs2_data s = Outcome.done rs2_data s := by
    intro h
    simp [mem_access, hcsr, hload, hstore, h]
  refine ⟨hne, heq, ?_, ?_⟩
  · intro v hv
    by_cases h : rs2_data = rd_data
    · rw [heq h] at hv
      simpa [Outcome.value] using hv.symm
    · rw [hne h, set_csr_eq] at hv
      by_cases hw : instr.imm ∈ c.writeLabels
      · rw [if_pos hw] at hv
        simpa [Outcome.value] using hv.symm
      · rw [if_neg hw] at hv
        simp [Outcome.value] at hv
  · by_cases h : rs2_data = rd_data
    · rw [heq h]
      simp [Outcome.completes, h]
    · rw [hne h, set_csr_eq]
      by_cases hw : instr.imm ∈ c.writeLabels
      · rw [if_pos hw]
        simp [Outcome.completes, hw]
      · rw [if_neg hw]
        simp [Outcome.completes, hw, h]

theorem mem_access_csr_witness :
    (mem_access rvConfig (Instr.csr 0x305) 7 9 Core.init).value = some 9
    ∧ (mem_access rvConfig (Instr.csr 0xB00) 7 9 Core.init).completes = false
    ∧ mem_access rvConfig (Instr.csr 0xB00) 9 9 Core.init = Outcome.done 9 Core.init :=
  ⟨((mem_access_csr rvConfig (Instr.csr 0x305) 7 9 Core.init rfl rfl rfl).1 (by decide)).symm ▸ rfl,
   ((mem_access_csr rvConfig (Instr.csr 0xB00) 7 9 Core.init rfl rfl rfl).2.2.2).mpr
      ⟨by decide, by decide⟩,
   (mem_access_csr rvConfig (Instr.csr 0xB00) 9 9 Core.init rfl rfl rfl).2.1 rfl⟩

/-- C13: a load through `mem_access` returns exactly for the width codes 0, 1, 2, 4
and 5 and aborts for every other code, 3, 6 and 7 among them; a store returns
exactly for 0, 1 and 2 and aborts for every other code, and an aborting store
leaves the core state, memory and console included, as it was. -/
theorem mem_access_width_codes (c : Config) (instr : Instr) (rd_data rs2_data : Nat) (s : Core) :
    (instr.exe_flags.is_load = true → instr.exe_flags.is_store = false →
      instr.exe_flags.is_csr = false →
      ((mem_access c instr rd_data rs2_data s).completes = true
        ↔ instr.func3 = 0 ∨ instr.func3 = 1 ∨ instr.func3 = 2 ∨ instr.func3 = 4
          ∨ instr.func3 = 5))
    ∧ (instr.exe_flags.is_store = true → instr.exe_flags.is_load = false →
      instr.exe_flags.is_csr = false →
      ((mem_access c instr rd_data rs2_data s).completes = true
        ↔ instr.func3 = 0 ∨ instr.func3 = 1 ∨ instr.func3 = 2)
      ∧ ((mem_access c instr rd_data rs2_data s).completes = false →
        (mem_access c instr rd_data rs2_data s).state = s)) := by
  constructor
  · intro hl hs hcsr
    simp only [mem_access, hl, hs, hcsr, Bool.false_eq_true, if_false, if_true]
    split_ifs with h1 h2 h3 <;> simp [Outcome.completes] <;> omega
  · intro hs hl hcsr
    simp only [mem_access, hl, hs, hcsr, Bool.false_eq_true, if_false, if_true]
    split_ifs with h1 <;> simp [Outcome.completes, Outcome.state, h1]

theorem mem_access_width_codes_witness :
    ((mem_access rvConfig (Instr.load 6) 0x1000 0 Core.init).completes = true
      ↔ (6 = 0 ∨ 6 = 1 ∨ 6 = 2 ∨ 6 = 4 ∨ 6 = 5))
    ∧ ((mem_access rvConfig (Instr.store 3) 0x1000 0xFF Core.init).completes = true
      ↔ (3 = 0 ∨ 3 = 1 ∨ 3 = 2))
    ∧ (mem_access rvConfig (Instr.store 3) 0x1000 0xFF Core.init).state = Core.init :=
  ⟨(mem_access_width_codes rvConfig (Instr.load 6) 0x1000 0 Core.init).1 rfl rfl rfl,
   ((mem_access_width_codes rvConfig (Instr.store 3) 0x1000 0xFF Core.init).2 rfl rfl rfl).1,
   ((mem_access_width_codes rvConfig (Instr.store 3) 0x1000 0xFF Core.init).2 rfl rfl rfl).2 rfl⟩

/-- C19, as stated, fails on the code: for the reserved width code 3 the load path
of `mem_access` issues a read of 8 bytes to the memory subsystem, and only then
aborts. -/
theorem mem_access_load_reads_eight :
    (mem_access rvConfig (Instr.load 3) 0x1000 0 Core.init).state.mmu_log
      = [MmuReq.read 0x1000 8]
    ∧ (mem_access rvConfig (Instr.load 3) 0x1000 0 Core.init).completes = false := by
  constructor <;> rfl

end tinyrv
